import Mathlib

/-!
# kernel-parrot: the framed message queue of `parrot.c`

A shallow embedding of the character device driver `src/parrot.c`:

* the module state (the byte kfifo, the table `parrot_msg_len` with its two
  indices, the flag `message_read`, the mutex, the module parameter `one_shot`)
  is a record `State`;
* every entry point (`parrot_device_open`, `parrot_device_release`,
  `parrot_device_read`, `sys_add_to_fifo`, `sys_reset`, `parrot_module_init`)
  is a function from the state and the call's arguments to the return value and
  the next state (sequential model: one call runs to completion before the next).

The kfifo of `<linux/kfifo.h>` is kernel library code, not part of the driver.
It is modelled by its contract: a byte queue of capacity `PARROT_MSG_FIFO_SIZE`
holding the bytes between the `out` and the `in` counter, oldest first.
-/

set_option linter.unusedVariables false
set_option maxRecDepth 100000

namespace Parrot

/-! ## Constants of `parrot.h` and errno values -/

/-- The macro `PARROT_MSG_FIFO_SIZE` of parrot.h: capacity of the byte kfifo. -/
def PARROT_MSG_FIFO_SIZE : Nat := 1024

/-- The macro `PARROT_MSG_FIFO_MAX` of parrot.h: slots of the length table. -/
def PARROT_MSG_FIFO_MAX : Nat := 128

/-- Errno `EACCES`. -/
def EACCES : Int := 13
/-- Errno `EFAULT`. -/
def EFAULT : Int := 14
/-- Errno `EBUSY`. -/
def EBUSY : Int := 16
/-- Errno `ENOSPC`. -/
def ENOSPC : Int := 28

/-! ## The kfifo contract -/

/-- The content of `parrot_msg_fifo`: the bytes not yet taken out, oldest first. -/
abbrev Kfifo := List Nat

/-- The kernel's `kfifo_is_empty`: `in == out`. -/
def kfifo_is_empty (f : Kfifo) : Bool := f.isEmpty

/-- The kernel's `kfifo_avail`: size minus the number of bytes in use. -/
def kfifo_avail (f : Kfifo) : Nat := PARROT_MSG_FIFO_SIZE - f.length

/-- The kernel's `kfifo_in`: copies `min(len, avail)` bytes of the buffer behind the
bytes already stored and returns how many were copied. -/
def kfifo_in (f : Kfifo) (buffer : List Nat) : Nat × Kfifo :=
  let l := min buffer.length (kfifo_avail f)
  (l, f ++ buffer.take l)

/-- Outcome of `kfifo_to_user`: the return value (`0` or `-EFAULT`), the value stored
through `copied`, the bytes that reached the user buffer, and the kfifo afterwards. -/
structure ToUser where
  retval : Int
  copied : Nat
  data : List Nat
  fifo : Kfifo
  deriving DecidableEq, Repr

/-- The kernel's `kfifo_to_user`: `len` is clipped to the number of stored bytes; the
user copy leaves `uncopied` of them unwritten (`0` for a writable buffer, clipped to the
request); `copied = len - ret`, the `out` counter advances by `copied`, and the return
value is `-EFAULT` exactly when some byte was not copied. -/
def kfifo_to_user (f : Kfifo) (len : Nat) (uncopied : Nat) : ToUser :=
  let l := min len f.length
  let ret := min uncopied l
  let n := l - ret
  { retval := if ret ≠ 0 then -EFAULT else 0
    copied := n
    data := f.take n
    fifo := f.drop n }

/-- The kernel's `kfifo_reset`: `in = out = 0`. -/
def kfifo_reset (_f : Kfifo) : Kfifo := []

/-! ## Module state -/

/-- The static variables of parrot.c that the entry points read or write. -/
structure State where
  /-- Content of `parrot_msg_fifo`. -/
  parrot_msg_fifo : Kfifo
  /-- The table `parrot_msg_len[PARROT_MSG_FIFO_MAX]`. -/
  parrot_msg_len : List Nat
  /-- Read index for the table. -/
  parrot_msg_idx_read : Nat
  /-- Write index for the table. -/
  parrot_msg_idx_write : Nat
  /-- The flag `message_read`. -/
  message_read : Bool
  /-- Whether `parrot_device_mutex` is held. -/
  mutex_locked : Bool
  /-- The module parameter `one_shot`. -/
  one_shot : Bool
  deriving DecidableEq, Repr

/-- State after `parrot_module_init` succeeded: statics are zero-initialised, the mutex
is initialised unlocked, the kfifo is initialised empty and both indices are set to 0.
The parameter `one_shot` is whatever was given on insmod (default `true`). -/
def parrot_module_init (one_shot : Bool) : State :=
  { parrot_msg_fifo := []
    parrot_msg_len := List.replicate PARROT_MSG_FIFO_MAX 0
    parrot_msg_idx_read := 0
    parrot_msg_idx_write := 0
    message_read := false
    mutex_locked := false
    one_shot := one_shot }

/-! ## File operations -/

/-- The function `parrot_device_open`; `can_write` is `file->f_mode & FMODE_CAN_WRITE`.
Returns the return value and the next state. -/
def parrot_device_open (s : State) (can_write : Bool) : Int × State :=
  if can_write then
    (-EACCES, s)
  else if s.mutex_locked then
    -- mutex_trylock failed
    (-EBUSY, s)
  else
    (0, { s with mutex_locked := true, message_read := false })

/-- The function `parrot_device_release`: unlocks the mutex, returns 0. -/
def parrot_device_release (s : State) : Int × State :=
  (0, { s with mutex_locked := false })

/-- Conversion of a C `int` to `unsigned int` (32 bits): the value modulo `2^32`. -/
def to_unsigned_int (x : Int) : Int := x % 4294967296

/-- The function `parrot_device_read`. `length` is the size of the user buffer (the body
never uses it), `offset_null` says whether `offset == NULL`, and `uncopied` is the number
of bytes the user copy fails to write (0 for a writable buffer). Returns the return
value, the bytes written to the user buffer and the next state.

In `retval ? retval : copied` the operands are an `int` and an `unsigned int`, so the
result has type `unsigned int`: a non-zero `retval` is converted before it is returned
in the 64-bit `ssize_t` (LP64), and `-EFAULT` comes out as `4294967282`. -/
def parrot_device_read (s : State) (length : Nat) (offset_null : Bool) (uncopied : Nat) :
    Int × List Nat × State :=
  if s.one_shot && s.message_read then
    (0, [], s)
  else if kfifo_is_empty s.parrot_msg_fifo then
    (0, [], s)
  else if offset_null then
    (-1, [], s)
  else
    let r := kfifo_to_user s.parrot_msg_fifo
      (s.parrot_msg_len.getD s.parrot_msg_idx_read 0) uncopied
    let s' := { s with
      parrot_msg_fifo := r.fifo
      parrot_msg_idx_read := (s.parrot_msg_idx_read + 1) % PARROT_MSG_FIFO_MAX
      message_read := true }
    (if r.retval ≠ 0 then to_unsigned_int r.retval else (r.copied : Int), r.data, s')

/-! ## sysfs entries -/

/-- The function `sys_add_to_fifo`; `count` is the length of `buffer`. Returns the
return value (`-ENOSPC` or the number of bytes copied) and the next state. -/
def sys_add_to_fifo (s : State) (buffer : List Nat) : Int × State :=
  let count := buffer.length
  if kfifo_avail s.parrot_msg_fifo < count then
    (-ENOSPC, s)
  else if (s.parrot_msg_idx_write + 1) % PARROT_MSG_FIFO_MAX = s.parrot_msg_idx_read then
    (-ENOSPC, s)
  else
    let r := kfifo_in s.parrot_msg_fifo buffer
    let copied := r.1
    (copied, { s with
      parrot_msg_fifo := r.2
      parrot_msg_len := s.parrot_msg_len.set s.parrot_msg_idx_write copied
      parrot_msg_idx_write := (s.parrot_msg_idx_write + 1) % PARROT_MSG_FIFO_MAX })

/-- The function `sys_reset`: resets the kfifo and both indices, returns `count`. -/
def sys_reset (s : State) (count : Nat) : Int × State :=
  (count, { s with
    parrot_msg_fifo := kfifo_reset s.parrot_msg_fifo
    parrot_msg_idx_read := 0
    parrot_msg_idx_write := 0 })

/-! ## Calls and reachable states -/

/-- One call into the driver, or a write of the module parameter `one_shot`
(it is declared `S_IWUSR`). -/
inductive Call where
  | dev_open (can_write : Bool)
  | release
  | read (length : Nat) (offset_null : Bool) (uncopied : Nat)
  | add (buffer : List Nat)
  | reset (count : Nat)
  | set_one_shot (b : Bool)
  deriving DecidableEq, Repr

/-- State after one call. -/
def step (s : State) : Call → State
  | .dev_open w => (parrot_device_open s w).2
  | .release => (parrot_device_release s).2
  | .read n o u => (parrot_device_read s n o u).2.2
  | .add b => (sys_add_to_fifo s b).2
  | .reset c => (sys_reset s c).2
  | .set_one_shot b => { s with one_shot := b }

/-- State after a sequence of calls. -/
def run (s : State) (cs : List Call) : State := cs.foldl step s

/-- States reachable from a successful `parrot_module_init` by any sequence of calls. -/
def Reachable (s : State) : Prop :=
  ∃ (b : Bool) (cs : List Call), s = run (parrot_module_init b) cs

/-- Shape invariant: the table has `PARROT_MSG_FIFO_MAX` slots, both indices are within
it, and the kfifo holds at most `PARROT_MSG_FIFO_SIZE` bytes. -/
def WellFormed (s : State) : Prop :=
  s.parrot_msg_len.length = PARROT_MSG_FIFO_MAX ∧
  s.parrot_msg_idx_read < PARROT_MSG_FIFO_MAX ∧
  s.parrot_msg_idx_write < PARROT_MSG_FIFO_MAX ∧
  s.parrot_msg_fifo.length ≤ PARROT_MSG_FIFO_SIZE

/-- The empty queue, as `parrot_module_init` and `sys_reset` leave it: no byte in the
kfifo and both indices 0 (the table slots may hold anything). -/
def EmptyQueue (s : State) : Prop :=
  s.parrot_msg_fifo = [] ∧ s.parrot_msg_idx_read = 0 ∧ s.parrot_msg_idx_write = 0

/-- Return values and final state of successive `sys_add_to_fifo` calls. -/
def add_all (s : State) : List (List Nat) → List Int × State
  | [] => ([], s)
  | m :: ms =>
    let r := sys_add_to_fifo s m
    let rest := add_all r.2 ms
    (r.1 :: rest.1, rest.2)

/-- Results (return value and bytes delivered) and final state of successive
`parrot_device_read` calls with the given buffer sizes, each made with a non-NULL
`offset` and a writable user buffer. -/
def read_all (s : State) : List Nat → List (Int × List Nat) × State
  | [] => ([], s)
  | n :: ns =>
    let r := parrot_device_read s n false 0
    let rest := read_all r.2.2 ns
    ((r.1, r.2.1) :: rest.1, rest.2)

/-- The queue of `s` holds exactly the messages `ps`, oldest first: the kfifo is their
concatenation, the table slots from the read index on hold their lengths, and the write
index is the read index advanced by their number. -/
def Framed (s : State) (ps : List (List Nat)) : Prop :=
  s.parrot_msg_len.length = PARROT_MSG_FIFO_MAX ∧
  s.parrot_msg_idx_read < PARROT_MSG_FIFO_MAX ∧
  s.parrot_msg_idx_write = (s.parrot_msg_idx_read + ps.length) % PARROT_MSG_FIFO_MAX ∧
  ps.length ≤ PARROT_MSG_FIFO_MAX - 1 ∧
  s.parrot_msg_fifo = ps.flatten ∧
  ∀ i (h : i < ps.length),
    s.parrot_msg_len.getD ((s.parrot_msg_idx_read + i) % PARROT_MSG_FIFO_MAX) 0 = ps[i].length

/-- What a read delivers for a whole message: its length and its bytes. -/
def delivery (m : List Nat) : Int × List Nat := ((m.length : Int), m)

/-- Both states have the same queue: byte kfifo, length table and both indices. -/
def SameQueue (s t : State) : Prop :=
  t.parrot_msg_fifo = s.parrot_msg_fifo ∧ t.parrot_msg_len = s.parrot_msg_len ∧
  t.parrot_msg_idx_read = s.parrot_msg_idx_read ∧
  t.parrot_msg_idx_write = s.parrot_msg_idx_write

/-- Number of pending table slots, `(writeIdx - readIdx) mod M`. -/
def pending_count (s : State) : Nat :=
  (s.parrot_msg_idx_write + PARROT_MSG_FIFO_MAX - s.parrot_msg_idx_read)
    % PARROT_MSG_FIFO_MAX

/-- Calls that can happen while a session stays open: everything except the release
that ends it and a write of the module parameter. -/
def Call.in_session : Call → Bool
  | .release => false
  | .set_one_shot _ => false
  | _ => true

/-- The driver state together with the number of open sessions: granted opens whose
file has not been released yet. -/
structure Tracked where
  /-- The state of the driver. -/
  st : State
  /-- Granted opens not yet released. -/
  sessions : Nat
  deriving DecidableEq, Repr

/-- One call as the VFS issues it: `parrot_device_release` is only called for a file
whose open was granted (no result otherwise); a granted open starts a session and a
release ends one. -/
def track_step (t : Tracked) : Call → Option Tracked
  | .dev_open w =>
    let r := parrot_device_open t.st w
    some { st := r.2, sessions := if r.1 = 0 then t.sessions + 1 else t.sessions }
  | .release =>
    if t.sessions = 0 then none
    else some { st := (parrot_device_release t.st).2, sessions := t.sessions - 1 }
  | .read n o u => some { st := (parrot_device_read t.st n o u).2.2, sessions := t.sessions }
  | .add b => some { st := (sys_add_to_fifo t.st b).2, sessions := t.sessions }
  | .reset c => some { st := (sys_reset t.st c).2, sessions := t.sessions }
  | .set_one_shot b => some { st := { t.st with one_shot := b }, sessions := t.sessions }

/-- A sequence of calls as the VFS issues them. -/
def track_run (t : Tracked) : List Call → Option Tracked
  | [] => some t
  | c :: cs =>
    match track_step t c with
    | none => none
    | some t' => track_run t' cs

/-- Sum of the lengths recorded in the table for the pending slots
`readIdx .. writeIdx - 1` (mod 128). -/
def pending_sum (s : State) : Nat :=
  ((List.range (pending_count s)).map (fun i =>
    s.parrot_msg_len.getD ((s.parrot_msg_idx_read + i) % PARROT_MSG_FIFO_MAX) 0)).sum

/-- A call that meets no user-copy fault: every call but a read whose user buffer
is not fully writable. -/
def Call.fault_free : Call → Bool
  | .read _ _ u => u == 0
  | _ => true

/-- States reachable from a successful `parrot_module_init` by calls none of which
meets a user-copy fault. -/
def ReachableFaultFree (s : State) : Prop :=
  ∃ (b : Bool) (cs : List Call),
    (∀ c ∈ cs, c.fault_free = true) ∧ s = run (parrot_module_init b) cs

/-- Whether `sys_add_to_fifo` reaches its branch `copied != count` ("short write
detected"). -/
def short_write_detected (s : State) (buffer : List Nat) : Bool :=
  if kfifo_avail s.parrot_msg_fifo < buffer.length then false
  else if (s.parrot_msg_idx_write + 1) % PARROT_MSG_FIFO_MAX = s.parrot_msg_idx_read then
    false
  else (kfifo_in s.parrot_msg_fifo buffer).1 != buffer.length

/-- Whether `parrot_device_read` reaches its branch
`parrot_msg_len[parrot_msg_idx_read] != copied` ("short read detected"). -/
def short_read_detected (s : State) (offset_null : Bool) (uncopied : Nat) : Bool :=
  if s.one_shot && s.message_read then false
  else if kfifo_is_empty s.parrot_msg_fifo then false
  else if offset_null then false
  else s.parrot_msg_len.getD s.parrot_msg_idx_read 0
    != (kfifo_to_user s.parrot_msg_fifo
      (s.parrot_msg_len.getD s.parrot_msg_idx_read 0) uncopied).copied

/-- The expression `(idx + 1) % PARROT_MSG_FIFO_MAX` on the C type `int` (the remainder
truncates towards zero). -/
def next_index_int (idx : Int) : Int := (idx + 1).tmod 128

/-- The kernel's `FMODE_READ` (linux/fs.h): the file is open for reading. -/
def FMODE_READ : Nat := 0x1

/-- The kernel's `FMODE_WRITE` (linux/fs.h): the file is open for writing, that is,
write access was requested. -/
def FMODE_WRITE : Nat := 0x2

/-- The kernel's `FMODE_CAN_WRITE` (linux/fs.h): the file has a write method. The VFS
sets it after `->open` returned, for a file open for writing whose `file_operations`
have a write method. -/
def FMODE_CAN_WRITE : Nat := 0x40000

/-- The test `file->f_mode & FMODE_CAN_WRITE` of `parrot_device_open`, on the mode
bits of the file. -/
def file_can_write (f_mode : Nat) : Bool := (f_mode &&& FMODE_CAN_WRITE) != 0

/-! ## Basic facts about the entry points -/

theorem read_gate_closed (s : State) (n : Nat) (o : Bool) (u : Nat)
    (h1 : s.one_shot = true) (h2 : s.message_read = true) :
    parrot_device_read s n o u = (0, [], s) := by
  simp [parrot_device_read, h1, h2]

theorem read_fifo_empty (s : State) (n : Nat) (o : Bool) (u : Nat)
    (h : s.parrot_msg_fifo = []) :
    parrot_device_read s n o u = (0, [], s) := by
  simp [parrot_device_read, kfifo_is_empty, h]

theorem read_offset_null (s : State) (n : Nat) (u : Nat)
    (hg : (s.one_shot && s.message_read) = false) (h : s.parrot_msg_fifo ≠ []) :
    parrot_device_read s n true u = (-1, [], s) := by
  simp only [parrot_device_read, hg, kfifo_is_empty, List.isEmpty_eq_true, h]
  simp

theorem read_copy (s : State) (n : Nat) (u : Nat)
    (hg : (s.one_shot && s.message_read) = false) (h : s.parrot_msg_fifo ≠ []) :
    parrot_device_read s n false u =
      let r := kfifo_to_user s.parrot_msg_fifo
        (s.parrot_msg_len.getD s.parrot_msg_idx_read 0) u
      (if r.retval ≠ 0 then to_unsigned_int r.retval else (r.copied : Int), r.data,
        { s with
          parrot_msg_fifo := r.fifo
          parrot_msg_idx_read := (s.parrot_msg_idx_read + 1) % PARROT_MSG_FIFO_MAX
          message_read := true }) := by
  simp only [parrot_device_read, hg, kfifo_is_empty, List.isEmpty_eq_true, h]
  simp

theorem kfifo_to_user_whole (m rest : List Nat) :
    kfifo_to_user (m ++ rest) m.length 0 =
      { retval := 0, copied := m.length, data := m, fifo := rest } := by
  simp [kfifo_to_user]

theorem add_no_space (s : State) (b : List Nat)
    (h : kfifo_avail s.parrot_msg_fifo < b.length) :
    sys_add_to_fifo s b = (-ENOSPC, s) := by
  simp [sys_add_to_fifo, h]

theorem add_table_full (s : State) (b : List Nat)
    (h : (s.parrot_msg_idx_write + 1) % PARROT_MSG_FIFO_MAX = s.parrot_msg_idx_read) :
    sys_add_to_fifo s b = (-ENOSPC, s) := by
  simp [sys_add_to_fifo, h]

theorem add_accepted (s : State) (b : List Nat)
    (h1 : b.length ≤ kfifo_avail s.parrot_msg_fifo)
    (h2 : (s.parrot_msg_idx_write + 1) % PARROT_MSG_FIFO_MAX ≠ s.parrot_msg_idx_read) :
    sys_add_to_fifo s b = ((b.length : Int), { s with
      parrot_msg_fifo := s.parrot_msg_fifo ++ b
      parrot_msg_len := s.parrot_msg_len.set s.parrot_msg_idx_write b.length
      parrot_msg_idx_write := (s.parrot_msg_idx_write + 1) % PARROT_MSG_FIFO_MAX }) := by
  have h3 : ¬ kfifo_avail s.parrot_msg_fifo < b.length := by omega
  simp [sys_add_to_fifo, h3, h2, kfifo_in, Nat.min_eq_left h1]

/-! ## Framing: the kfifo and the length table stay in step -/

theorem getD_set_self (l : List Nat) (i v : Nat) (h : i < l.length) :
    (l.set i v).getD i 0 = v := by
  simp [List.getD_eq_getElem?_getD, List.getElem?_set, h]

theorem getD_set_other (l : List Nat) (i j v : Nat) (h : i ≠ j) :
    (l.set i v).getD j 0 = l.getD j 0 := by
  simp [List.getD_eq_getElem?_getD, List.getElem?_set, h]

theorem framed_add (s : State) (ps : List (List Nat)) (b : List Nat)
    (hF : Framed s ps)
    (h1 : b.length ≤ kfifo_avail s.parrot_msg_fifo)
    (h2 : (s.parrot_msg_idx_write + 1) % PARROT_MSG_FIFO_MAX ≠ s.parrot_msg_idx_read) :
    (sys_add_to_fifo s b).1 = (b.length : Int) ∧
    Framed (sys_add_to_fifo s b).2 (ps ++ [b]) := by
  rw [add_accepted s b h1 h2]
  obtain ⟨hlen, hr, hw, hk, hf, ht⟩ := hF
  unfold Framed
  simp only [PARROT_MSG_FIFO_MAX] at hlen hr hw hk ht h2 ⊢
  refine ⟨trivial, ?_, ?_, ?_, ?_, ?_, ?_⟩
  · simpa using hlen
  · exact hr
  · simp only [List.length_append, List.length_singleton]; omega
  · simp only [List.length_append, List.length_singleton]; omega
  · simp [hf]
  · intro i hi
    simp only [List.length_append, List.length_singleton] at hi
    by_cases hik : i < ps.length
    · have hne : s.parrot_msg_idx_write ≠ (s.parrot_msg_idx_read + i) % 128 := by omega
      rw [getD_set_other _ _ _ _ hne, List.getElem_append_left hik]
      exact ht i hik
    · have hik2 : i = ps.length := by omega
      subst hik2
      have hw2 : (s.parrot_msg_idx_read + ps.length) % 128 = s.parrot_msg_idx_write := by omega
      rw [hw2, getD_set_self _ _ _ (by omega)]
      simp

theorem framed_read (s : State) (m : List Nat) (ps : List (List Nat)) (n : Nat)
    (hF : Framed s (m :: ps))
    (hg : (s.one_shot && s.message_read) = false) (hne : s.parrot_msg_fifo ≠ []) :
    (parrot_device_read s n false 0).1 = (m.length : Int) ∧
    (parrot_device_read s n false 0).2.1 = m ∧
    Framed (parrot_device_read s n false 0).2.2 ps ∧
    (parrot_device_read s n false 0).2.2.one_shot = s.one_shot := by
  rw [read_copy s n 0 hg hne]
  obtain ⟨hlen, hr, hw, hk, hf, ht⟩ := hF
  unfold Framed
  simp only [PARROT_MSG_FIFO_MAX] at hlen hr hw hk ht ⊢
  have h0 := ht 0 (by simp)
  simp only [Nat.add_zero, Nat.mod_eq_of_lt hr, List.getElem_cons_zero] at h0
  simp only [List.flatten_cons] at hf
  simp only [h0, hf, kfifo_to_user_whole]
  simp only [List.length_cons] at hw hk
  refine ⟨by simp, trivial, ⟨hlen, ?_, ?_, ?_, trivial, ?_⟩, trivial⟩
  · exact Nat.mod_lt _ (by decide)
  · omega
  · omega
  · intro i hi
    have := ht (i + 1) (by simp only [List.length_cons]; omega)
    simp only [List.getElem_cons_succ] at this
    rw [← this]
    congr 1
    omega

theorem read_all_fifo_empty (ns : List Nat) (s : State) (h : s.parrot_msg_fifo = []) :
    read_all s ns = (List.replicate ns.length (0, []), s) := by
  induction ns with
  | nil => rfl
  | cons n ns ih =>
    simp only [read_all, read_fifo_empty s n false 0 h, ih, List.length_cons,
      List.replicate_succ]

theorem delivery_of_flatten_nil (ps : List (List Nat)) (h : ps.flatten = []) :
    ps.map delivery = List.replicate ps.length (0, []) := by
  induction ps with
  | nil => rfl
  | cons m ps ih =>
    simp only [List.flatten_cons, List.append_eq_nil] at h
    simp [ih h.2, h.1, delivery, List.replicate_succ]

theorem add_all_framed (ms : List (List Nat)) :
    ∀ (s : State) (ps : List (List Nat)), Framed s ps →
      ps.length + ms.length ≤ PARROT_MSG_FIFO_MAX - 1 →
      s.parrot_msg_fifo.length + (ms.map List.length).sum ≤ PARROT_MSG_FIFO_SIZE →
      (add_all s ms).1 = ms.map (fun m => (m.length : Int)) ∧
      Framed (add_all s ms).2 (ps ++ ms) ∧
      (add_all s ms).2.one_shot = s.one_shot := by
  induction ms with
  | nil =>
    intro s ps hF _ _
    simpa [add_all] using hF
  | cons m ms ih =>
    intro s ps hF hk hb
    simp only [List.length_cons, List.map_cons, List.sum_cons] at hk hb
    have h1 : m.length ≤ kfifo_avail s.parrot_msg_fifo := by
      simp only [kfifo_avail]; omega
    have h2 : (s.parrot_msg_idx_write + 1) % PARROT_MSG_FIFO_MAX ≠ s.parrot_msg_idx_read := by
      obtain ⟨_, hr, hw, _, _, _⟩ := hF
      simp only [PARROT_MSG_FIFO_MAX] at hr hw hk ⊢
      omega
    obtain ⟨hret, hF1⟩ := framed_add s ps m hF h1 h2
    have hfifo : (sys_add_to_fifo s m).2.parrot_msg_fifo = s.parrot_msg_fifo ++ m := by
      rw [add_accepted s m h1 h2]
    have hone : (sys_add_to_fifo s m).2.one_shot = s.one_shot := by
      rw [add_accepted s m h1 h2]
    obtain ⟨hr1, hF2, ho2⟩ := ih (sys_add_to_fifo s m).2 (ps ++ [m]) hF1
      (by simp only [List.length_append, List.length_singleton]; omega)
      (by rw [hfifo, List.length_append]; omega)
    refine ⟨?_, ?_, ?_⟩
    · simp only [add_all, hret, hr1, List.map_cons]
    · simpa [add_all] using hF2
    · simp only [add_all, ho2, hone]

theorem read_all_framed (ps : List (List Nat)) :
    ∀ (s : State) (ns : List Nat), Framed s ps → s.one_shot = false →
      ns.length = ps.length →
      (read_all s ns).1 = ps.map delivery ∧
      (read_all s ns).2.parrot_msg_fifo = [] := by
  induction ps with
  | nil =>
    intro s ns hF _ hn
    have hns : ns = [] := List.length_eq_zero.mp hn
    subst hns
    exact ⟨rfl, hF.2.2.2.2.1⟩
  | cons m ps ih =>
    intro s ns hF ho hn
    by_cases hne : s.parrot_msg_fifo = []
    · rw [read_all_fifo_empty ns s hne]
      refine ⟨?_, hne⟩
      have hfl : (m :: ps).flatten = [] := by rw [← hF.2.2.2.2.1]; exact hne
      rw [delivery_of_flatten_nil _ hfl, hn]
    · cases ns with
      | nil => simp at hn
      | cons n ns =>
        have hg : (s.one_shot && s.message_read) = false := by simp [ho]
        obtain ⟨h1, h2, hF1, ho1⟩ := framed_read s m ps n hF hg hne
        obtain ⟨h3, h4⟩ := ih (parrot_device_read s n false 0).2.2 ns hF1
          (by rw [ho1, ho]) (by simpa using hn)
        refine ⟨?_, ?_⟩
        · simp only [read_all, h1, h2, h3, List.map_cons, delivery]
        · simpa [read_all] using h4

theorem framed_of_empty (s : State) (hwf : WellFormed s) (he : EmptyQueue s) :
    Framed s [] := by
  obtain ⟨h1, h2, h3, _⟩ := hwf
  obtain ⟨e1, e2, e3⟩ := he
  refine ⟨h1, h2, ?_, ?_, ?_, ?_⟩
  · simp [e2, e3]
  · simp
  · simpa using e1
  · intro i hi
    simp at hi

/-- C1 (framing round-trip). From the empty queue with `one_shot` false, for messages
`ms` of total length at most 1024 and count at most 127: every `sys_add_to_fifo` call
is accepted (it returns the message's length), the next `ms.length` calls of
`parrot_device_read` (any buffer sizes `ns`) deliver exactly the messages of `ms`, in
order, each with its own length, and the read after them returns 0 and delivers
nothing. The reads that drain the queue are made with a non-NULL `offset` and a
writable user buffer. -/
theorem framing_round_trip (s : State) (ms : List (List Nat)) (ns : List Nat) (n : Nat)
    (o : Bool) (u : Nat)
    (hwf : WellFormed s) (hempty : EmptyQueue s) (hone : s.one_shot = false)
    (htotal : (ms.map List.length).sum ≤ PARROT_MSG_FIFO_SIZE)
    (hcount : ms.length ≤ PARROT_MSG_FIFO_MAX - 1)
    (hns : ns.length = ms.length) :
    (add_all s ms).1 = ms.map (fun m => (m.length : Int)) ∧
    (read_all (add_all s ms).2 ns).1 = ms.map (fun m => ((m.length : Int), m)) ∧
    (parrot_device_read (read_all (add_all s ms).2 ns).2 n o u).1 = 0 ∧
    (parrot_device_read (read_all (add_all s ms).2 ns).2 n o u).2.1 = [] := by
  have hF := framed_of_empty s hwf hempty
  obtain ⟨h1, h2, h3⟩ := add_all_framed ms s [] hF (by simpa using hcount)
    (by rw [hempty.1]; simpa using htotal)
  simp only [List.nil_append] at h2
  obtain ⟨h4, h5⟩ := read_all_framed ms (add_all s ms).2 ns h2 (by rw [h3, hone]) hns
  refine ⟨h1, h4, ?_, ?_⟩
  · rw [read_fifo_empty _ n o u h5]
  · rw [read_fifo_empty _ n o u h5]

theorem framing_round_trip_witness :
    (add_all (parrot_module_init false) [[104, 101, 108, 108, 111], [], [33]]).1
      = [5, 0, 1] ∧
    (read_all (add_all (parrot_module_init false)
        [[104, 101, 108, 108, 111], [], [33]]).2 [64, 0, 64]).1
      = [(5, [104, 101, 108, 108, 111]), (0, []), (1, [33])] ∧
    (parrot_device_read (read_all (add_all (parrot_module_init false)
        [[104, 101, 108, 108, 111], [], [33]]).2 [64, 0, 64]).2 64 false 0).1 = 0 ∧
    (parrot_device_read (read_all (add_all (parrot_module_init false)
        [[104, 101, 108, 108, 111], [], [33]]).2 [64, 0, 64]).2 64 false 0).2.1 = [] :=
  framing_round_trip (parrot_module_init false) [[104, 101, 108, 108, 111], [], [33]]
    [64, 0, 64] 64 false 0 (by simp [WellFormed, parrot_module_init, PARROT_MSG_FIFO_MAX])
    ⟨rfl, rfl, rfl⟩ rfl (by decide) (by decide) rfl

/-! ## Shape invariant of reachable states -/

theorem wellFormed_init (b : Bool) : WellFormed (parrot_module_init b) := by
  simp [WellFormed, parrot_module_init, PARROT_MSG_FIFO_MAX]

theorem wellFormed_step (s : State) (c : Call) (h : WellFormed s) : WellFormed (step s c) := by
  obtain ⟨h1, h2, h3, h4⟩ := h
  cases c with
  | dev_open w =>
    simp only [step, parrot_device_open]
    split
    · exact ⟨h1, h2, h3, h4⟩
    · split
      · exact ⟨h1, h2, h3, h4⟩
      · exact ⟨h1, h2, h3, h4⟩
  | release => exact ⟨h1, h2, h3, h4⟩
  | read n o u =>
    simp only [step, parrot_device_read]
    split
    · exact ⟨h1, h2, h3, h4⟩
    · split
      · exact ⟨h1, h2, h3, h4⟩
      · split
        · exact ⟨h1, h2, h3, h4⟩
        · refine ⟨h1, Nat.mod_lt _ (by decide), h3, ?_⟩
          simp only [kfifo_to_user, List.length_drop]
          omega
  | add b =>
    simp only [step, sys_add_to_fifo]
    split
    · exact ⟨h1, h2, h3, h4⟩
    · split
      · exact ⟨h1, h2, h3, h4⟩
      · rename_i hav _
        refine ⟨by simpa using h1, h2, Nat.mod_lt _ (by decide), ?_⟩
        simp only [kfifo_in, kfifo_avail, List.length_append, List.length_take] at hav ⊢
        omega
  | reset c =>
    refine ⟨h1, ?_, ?_, ?_⟩
    · simp [step, sys_reset, PARROT_MSG_FIFO_MAX]
    · simp [step, sys_reset, PARROT_MSG_FIFO_MAX]
    · simp [step, sys_reset, kfifo_reset]
  | set_one_shot b => exact ⟨h1, h2, h3, h4⟩

theorem wellFormed_run (cs : List Call) : ∀ s, WellFormed s → WellFormed (run s cs) := by
  induction cs with
  | nil => intro s h; exact h
  | cons c cs ih => intro s h; exact ih _ (wellFormed_step s c h)

theorem wellFormed_of_reachable (s : State) (h : Reachable s) : WellFormed s := by
  obtain ⟨b, cs, rfl⟩ := h
  exact wellFormed_run cs _ (wellFormed_init b)

/-! ## Dequeue, enqueue and the one-shot gate -/

/-- C2 (dequeue truncation), the code at the failing input: with the five-byte message
"hello" pending in an open session, a permitted `parrot_device_read` with a one-byte
user buffer (`length = 1`) returns 5 and writes all five bytes, not `min(5, 1) = 1`. -/
theorem read_exceeds_buffer_size :
    (parrot_device_read
      (run (parrot_module_init true) [.add [104, 101, 108, 108, 111], .dev_open false])
      1 false 0).1 = 5 ∧
    (parrot_device_read
      (run (parrot_module_init true) [.add [104, 101, 108, 108, 111], .dev_open false])
      1 false 0).2.1 = [104, 101, 108, 108, 111] ∧
    ¬ ((parrot_device_read
      (run (parrot_module_init true) [.add [104, 101, 108, 108, 111], .dev_open false])
      1 false 0).1 ≤ 1) := by
  decide

/-- C4 (empty test of dequeue), the claim as stated fails: after `parrot_module_init`,
an accepted enqueue of the empty message and a granted open, the length table is
non-empty (`parrot_msg_idx_read = 0`, `parrot_msg_idx_write = 1`), yet a read that
passes the one-shot gate returns 0 and leaves the whole state unchanged. -/
theorem table_nonempty_read_returns_zero :
    Reachable (run (parrot_module_init true) [.add [], .dev_open false]) ∧
    ((run (parrot_module_init true) [.add [], .dev_open false]).one_shot &&
      (run (parrot_module_init true) [.add [], .dev_open false]).message_read) = false ∧
    ¬ (((parrot_device_read (run (parrot_module_init true) [.add [], .dev_open false])
          8 false 0).1 = 0 ∧
        SameQueue (run (parrot_module_init true) [.add [], .dev_open false])
          (parrot_device_read (run (parrot_module_init true) [.add [], .dev_open false])
            8 false 0).2.2)
      ↔ (run (parrot_module_init true) [.add [], .dev_open false]).parrot_msg_idx_read
          = (run (parrot_module_init true) [.add [], .dev_open false]).parrot_msg_idx_write) := by
  refine ⟨⟨true, [.add [], .dev_open false], rfl⟩, by decide, ?_⟩
  unfold SameQueue
  decide

/-- C5 (byte-capacity rejection): for every state and every payload whose length exceeds
`1024 - bytesInUse`, `sys_add_to_fifo` returns `-ENOSPC` and leaves the whole state (byte
kfifo, length table, both indices) unchanged. -/
theorem byte_capacity_rejection (s : State) (b : List Nat)
    (h : PARROT_MSG_FIFO_SIZE - s.parrot_msg_fifo.length < b.length) :
    (sys_add_to_fifo s b).1 = -ENOSPC ∧ (sys_add_to_fifo s b).2 = s := by
  rw [add_no_space s b (by simpa [kfifo_avail] using h)]
  exact ⟨rfl, rfl⟩

theorem byte_capacity_rejection_witness :
    (sys_add_to_fifo (sys_add_to_fifo (parrot_module_init true) [1, 2, 3, 4, 5]).2
        (List.replicate 1020 7)).1 = -ENOSPC ∧
    (sys_add_to_fifo (sys_add_to_fifo (parrot_module_init true) [1, 2, 3, 4, 5]).2
        (List.replicate 1020 7)).2
      = (sys_add_to_fifo (parrot_module_init true) [1, 2, 3, 4, 5]).2 :=
  byte_capacity_rejection (sys_add_to_fifo (parrot_module_init true) [1, 2, 3, 4, 5]).2
    (List.replicate 1020 7)
    (by rw [List.length_replicate]; decide)

theorem pending_count_of_framed (s : State) (ps : List (List Nat)) (h : Framed s ps) :
    pending_count s = ps.length := by
  obtain ⟨_, hr, hw, hk, _, _⟩ := h
  simp only [pending_count, PARROT_MSG_FIFO_MAX] at hr hw hk ⊢
  omega

/-- C6 (usable slot capacity is M-1 = 127): from the empty queue, 127 successive
enqueues of one-byte payloads are all accepted and leave 127 pending slots; in every
reachable state with `(writeIdx - readIdx) mod 128 = 127` an enqueue of any payload
returns `-ENOSPC` and leaves the state unchanged; and in every reachable state the
pending count is at most 127. -/
theorem usable_slot_capacity :
    (∀ (s : State) (ms : List (List Nat)), WellFormed s → EmptyQueue s →
      ms.length = PARROT_MSG_FIFO_MAX - 1 → (∀ m ∈ ms, m.length = 1) →
      (add_all s ms).1 = List.replicate (PARROT_MSG_FIFO_MAX - 1) 1 ∧
      pending_count (add_all s ms).2 = PARROT_MSG_FIFO_MAX - 1) ∧
    (∀ (s : State) (b : List Nat), Reachable s →
      pending_count s = PARROT_MSG_FIFO_MAX - 1 →
      (sys_add_to_fifo s b).1 = -ENOSPC ∧ (sys_add_to_fifo s b).2 = s) ∧
    (∀ s : State, Reachable s → pending_count s ≤ PARROT_MSG_FIFO_MAX - 1) := by
  refine ⟨?_, ?_, ?_⟩
  · intro s ms hwf he hlen hone
    have hmap : ms.map List.length = List.replicate (PARROT_MSG_FIFO_MAX - 1) 1 := by
      rw [← hlen]
      exact List.eq_replicate_iff.mpr ⟨by simp, by simpa using hone⟩
    obtain ⟨h1, h2, _⟩ := add_all_framed ms s [] (framed_of_empty s hwf he)
      (by simp [hlen])
      (by rw [he.1, hmap]; simp [PARROT_MSG_FIFO_MAX, PARROT_MSG_FIFO_SIZE])
    refine ⟨?_, ?_⟩
    · rw [h1]
      have : ms.map (fun m => (m.length : Int)) = (ms.map List.length).map Nat.cast := by
        simp
      rw [this, hmap]
      simp
    · rw [pending_count_of_framed _ _ h2]
      simpa using hlen
  · intro s b hr hp
    obtain ⟨_, h2, h3, _⟩ := wellFormed_of_reachable s hr
    rw [add_table_full s b (by
      simp only [pending_count, PARROT_MSG_FIFO_MAX] at hp h2 h3 ⊢
      omega)]
    exact ⟨rfl, rfl⟩
  · intro s _
    simp only [pending_count, PARROT_MSG_FIFO_MAX]
    omega


theorem usable_slot_capacity_witness :
    ((add_all (parrot_module_init true) (List.replicate 127 [7])).1 = List.replicate 127 1 ∧
      pending_count (add_all (parrot_module_init true) (List.replicate 127 [7])).2 = 127) ∧
    ((sys_add_to_fifo (run (parrot_module_init true) (List.replicate 127 (.add [7]))) [7]).1
        = -ENOSPC ∧
      (sys_add_to_fifo (run (parrot_module_init true) (List.replicate 127 (.add [7]))) [7]).2
        = run (parrot_module_init true) (List.replicate 127 (.add [7]))) ∧
    pending_count (run (parrot_module_init true) (List.replicate 127 (.add [7]))) ≤ 127 :=
  ⟨usable_slot_capacity.1 (parrot_module_init true) (List.replicate 127 [7])
      (wellFormed_init true) ⟨rfl, rfl, rfl⟩ (by simp [PARROT_MSG_FIFO_MAX])
      (by intro m hm; rw [List.eq_of_mem_replicate hm]; rfl),
    usable_slot_capacity.2.1 (run (parrot_module_init true) (List.replicate 127 (.add [7])))
      [7] ⟨true, _, rfl⟩ (by decide),
    usable_slot_capacity.2.2 (run (parrot_module_init true) (List.replicate 127 (.add [7])))
      ⟨true, _, rfl⟩⟩

/-- C7 (enqueue postcondition): for every reachable state and payload `b`,
`sys_add_to_fifo` is accepted (does not return `-ENOSPC`) if and only if
`b.length ≤ 1024 - bytesInUse` and `(writeIdx + 1) mod 128 ≠ readIdx`; when accepted it
returns exactly `b.length`, appends the payload behind the bytes already in the kfifo,
stores `b.length` at slot `writeIdx` of the table, leaves every other slot, the read
index and the session fields unchanged, and sets `writeIdx` to `(writeIdx + 1) mod 128`;
when rejected it returns `-ENOSPC` and leaves the state unchanged. -/
theorem enqueue_postcondition (s : State) (b : List Nat) (hr : Reachable s) :
    ((sys_add_to_fifo s b).1 ≠ -ENOSPC ↔
      (b.length ≤ PARROT_MSG_FIFO_SIZE - s.parrot_msg_fifo.length ∧
        (s.parrot_msg_idx_write + 1) % PARROT_MSG_FIFO_MAX ≠ s.parrot_msg_idx_read)) ∧
    ((b.length ≤ PARROT_MSG_FIFO_SIZE - s.parrot_msg_fifo.length ∧
        (s.parrot_msg_idx_write + 1) % PARROT_MSG_FIFO_MAX ≠ s.parrot_msg_idx_read) →
      (sys_add_to_fifo s b).1 = (b.length : Int) ∧
      (sys_add_to_fifo s b).2.parrot_msg_fifo = s.parrot_msg_fifo ++ b ∧
      (sys_add_to_fifo s b).2.parrot_msg_len.getD s.parrot_msg_idx_write 0 = b.length ∧
      (sys_add_to_fifo s b).2.parrot_msg_len.length = s.parrot_msg_len.length ∧
      (∀ i, i ≠ s.parrot_msg_idx_write →
        (sys_add_to_fifo s b).2.parrot_msg_len.getD i 0 = s.parrot_msg_len.getD i 0) ∧
      (sys_add_to_fifo s b).2.parrot_msg_idx_write
        = (s.parrot_msg_idx_write + 1) % PARROT_MSG_FIFO_MAX ∧
      (sys_add_to_fifo s b).2.parrot_msg_idx_read = s.parrot_msg_idx_read ∧
      (sys_add_to_fifo s b).2.message_read = s.message_read ∧
      (sys_add_to_fifo s b).2.mutex_locked = s.mutex_locked ∧
      (sys_add_to_fifo s b).2.one_shot = s.one_shot) ∧
    (¬ (b.length ≤ PARROT_MSG_FIFO_SIZE - s.parrot_msg_fifo.length ∧
        (s.parrot_msg_idx_write + 1) % PARROT_MSG_FIFO_MAX ≠ s.parrot_msg_idx_read) →
      (sys_add_to_fifo s b).1 = -ENOSPC ∧ (sys_add_to_fifo s b).2 = s) := by
  obtain ⟨hlen, _, hw, _⟩ := wellFormed_of_reachable s hr
  by_cases h1 : kfifo_avail s.parrot_msg_fifo < b.length
  · have hc : ¬ (b.length ≤ PARROT_MSG_FIFO_SIZE - s.parrot_msg_fifo.length ∧
        (s.parrot_msg_idx_write + 1) % PARROT_MSG_FIFO_MAX ≠ s.parrot_msg_idx_read) := by
      simp only [kfifo_avail] at h1
      intro hh
      omega
    rw [add_no_space s b h1]
    simp [hc]
  · by_cases h2 : (s.parrot_msg_idx_write + 1) % PARROT_MSG_FIFO_MAX
        = s.parrot_msg_idx_read
    · have hc : ¬ (b.length ≤ PARROT_MSG_FIFO_SIZE - s.parrot_msg_fifo.length ∧
          (s.parrot_msg_idx_write + 1) % PARROT_MSG_FIFO_MAX ≠ s.parrot_msg_idx_read) := by
        intro hh
        exact hh.2 h2
      rw [add_table_full s b h2]
      simp [hc]
    · have hc : (b.length ≤ PARROT_MSG_FIFO_SIZE - s.parrot_msg_fifo.length ∧
          (s.parrot_msg_idx_write + 1) % PARROT_MSG_FIFO_MAX ≠ s.parrot_msg_idx_read) := by
        simp only [kfifo_avail] at h1
        exact ⟨by omega, h2⟩
      rw [add_accepted s b (by omega) h2]
      refine ⟨?_, ?_, ?_⟩
      · refine ⟨fun _ => hc, fun _ => ?_⟩
        simp only [ENOSPC]
        omega
      · intro _
        refine ⟨rfl, rfl, ?_, ?_, ?_, rfl, rfl, rfl, rfl, rfl⟩
        · exact getD_set_self _ _ _ (by rw [hlen]; exact hw)
        · simp
        · intro i hi
          exact getD_set_other _ _ _ _ (Ne.symm hi)
      · intro hn
        exact absurd hc hn

theorem enqueue_postcondition_witness :
    (sys_add_to_fifo (sys_add_to_fifo (parrot_module_init true) [104, 105]).2 [33]).1 = 1 ∧
    (sys_add_to_fifo (sys_add_to_fifo (parrot_module_init true) [104, 105]).2
      [33]).2.parrot_msg_fifo = [104, 105, 33] :=
  ⟨((enqueue_postcondition (sys_add_to_fifo (parrot_module_init true) [104, 105]).2 [33]
      ⟨true, [.add [104, 105]], rfl⟩).2.1 (by decide)).1,
    ((enqueue_postcondition (sys_add_to_fifo (parrot_module_init true) [104, 105]).2 [33]
      ⟨true, [.add [104, 105]], rfl⟩).2.1 (by decide)).2.1⟩

theorem read_positive_marks (s : State) (n : Nat) (o : Bool) (u : Nat)
    (h : 0 < (parrot_device_read s n o u).1) :
    (parrot_device_read s n o u).2.2.message_read = true ∧
    (parrot_device_read s n o u).2.2.one_shot = s.one_shot ∧
    (parrot_device_read s n o u).2.2.mutex_locked = s.mutex_locked := by
  simp only [parrot_device_read] at h ⊢
  split at h
  · simp at h
  · split at h
    · simp at h
    · split at h
      · simp at h
      · rename_i h1 h2 h3
        simp only [h1, h2, h3]
        simp

theorem in_session_step_keeps_gate (s : State) (c : Call) (hc : c.in_session = true)
    (h1 : s.one_shot = true) (h2 : s.message_read = true) (h3 : s.mutex_locked = true) :
    (step s c).one_shot = true ∧ (step s c).message_read = true ∧
    (step s c).mutex_locked = true := by
  cases c with
  | dev_open w =>
    cases w <;> simp [step, parrot_device_open, h1, h2, h3]
  | release => simp [Call.in_session] at hc
  | read n o u =>
    simp only [step]
    rw [read_gate_closed s n o u h1 h2]
    exact ⟨h1, h2, h3⟩
  | add b =>
    simp only [step, sys_add_to_fifo]
    split
    · exact ⟨h1, h2, h3⟩
    · split
      · exact ⟨h1, h2, h3⟩
      · exact ⟨h1, h2, h3⟩
  | reset c => exact ⟨h1, h2, h3⟩
  | set_one_shot b => simp [Call.in_session] at hc

theorem in_session_run_keeps_gate (cs : List Call) :
    ∀ s : State, (∀ c ∈ cs, c.in_session = true) →
      s.one_shot = true → s.message_read = true → s.mutex_locked = true →
      (run s cs).one_shot = true ∧ (run s cs).message_read = true := by
  induction cs with
  | nil => intro s _ h1 h2 _; exact ⟨h1, h2⟩
  | cons c cs ih =>
    intro s hcs h1 h2 h3
    obtain ⟨g1, g2, g3⟩ := in_session_step_keeps_gate s c (hcs c (by simp)) h1 h2 h3
    exact ih (step s c) (fun c' hc' => hcs c' (by simp [hc'])) g1 g2 g3

/-- C8 (one-shot gate): with `one_shot` true, once a read in a session (the mutex is
held) has returned a positive byte count, every later `parrot_device_read` of the
session returns 0, delivers nothing and leaves the whole state (byte kfifo, length
table, both indices) unchanged, whatever enqueues, resets, reads or refused opens
happen in between. -/
theorem one_shot_gate (s : State) (n : Nat) (o : Bool) (u : Nat) (cs : List Call)
    (n' : Nat) (o' : Bool) (u' : Nat)
    (h1 : s.one_shot = true) (h2 : s.mutex_locked = true)
    (h3 : 0 < (parrot_device_read s n o u).1)
    (h4 : ∀ c ∈ cs, c.in_session = true) :
    parrot_device_read (run (parrot_device_read s n o u).2.2 cs) n' o' u'
      = (0, [], run (parrot_device_read s n o u).2.2 cs) := by
  obtain ⟨g1, g2, g3⟩ := read_positive_marks s n o u h3
  obtain ⟨k1, k2⟩ := in_session_run_keeps_gate cs (parrot_device_read s n o u).2.2 h4
    (by rw [g2, h1]) g1 (by rw [g3, h2])
  exact read_gate_closed _ n' o' u' k1 k2

theorem one_shot_gate_witness :
    (parrot_device_open (run (parrot_module_init true)
        [.add [104, 101, 108, 108, 111], .add [119, 111, 114, 108, 100, 33]]) false).1 = 0 ∧
    (parrot_device_read (run (parrot_module_init true)
        [.add [104, 101, 108, 108, 111], .add [119, 111, 114, 108, 100, 33],
          .dev_open false]) 64 false 0).1 = 5 ∧
    (parrot_device_read (run (parrot_module_init true)
        [.add [104, 101, 108, 108, 111], .add [119, 111, 114, 108, 100, 33],
          .dev_open false]) 64 false 0).2.1 = [104, 101, 108, 108, 111] ∧
    (parrot_device_read (run (parrot_module_init true)
        [.add [104, 101, 108, 108, 111], .add [119, 111, 114, 108, 100, 33],
          .dev_open false]) 64 false 0).2.2.parrot_msg_fifo
      = [119, 111, 114, 108, 100, 33] ∧
    parrot_device_read (run (parrot_device_read (run (parrot_module_init true)
        [.add [104, 101, 108, 108, 111], .add [119, 111, 114, 108, 100, 33],
          .dev_open false]) 64 false 0).2.2 []) 64 false 0
      = (0, [], run (parrot_device_read (run (parrot_module_init true)
        [.add [104, 101, 108, 108, 111], .add [119, 111, 114, 108, 100, 33],
          .dev_open false]) 64 false 0).2.2 []) :=
  ⟨by decide, by decide, by decide, by decide,
    one_shot_gate (run (parrot_module_init true)
        [.add [104, 101, 108, 108, 111], .add [119, 111, 114, 108, 100, 33],
          .dev_open false]) 64 false 0 [] 64 false 0
      (by decide) (by decide) (by decide) (by simp)⟩

/-- C9 (consumed mark only on a non-empty read), the claim as stated fails: with
`one_shot` true, enqueue the empty message and then "a", open a session and read. The
read returns 0 bytes and still sets `message_read`, so the next read of the session is
refused by the gate although "a" is pending. -/
theorem zero_byte_read_marks_consumed :
    (run (parrot_module_init true) [.add [], .add [97], .dev_open false]).one_shot = true ∧
    (run (parrot_module_init true) [.add [], .add [97], .dev_open false]).message_read
      = false ∧
    (parrot_device_read (run (parrot_module_init true)
        [.add [], .add [97], .dev_open false]) 8 false 0).1 = 0 ∧
    (parrot_device_read (run (parrot_module_init true)
        [.add [], .add [97], .dev_open false]) 8 false 0).2.2.message_read = true ∧
    (parrot_device_read (parrot_device_read (run (parrot_module_init true)
        [.add [], .add [97], .dev_open false]) 8 false 0).2.2 8 false 0).1 = 0 ∧
    (parrot_device_read (run (parrot_module_init true)
        [.add [], .add [97], .dev_open false]) 8 false 0).2.2.parrot_msg_fifo = [97] := by
  decide

/-- C9 (consumed mark), amended: a read sets `message_read` exactly when it reaches the
copy step, that is when it passes the gate with a non-empty byte kfifo and a non-NULL
`offset`. A read that leaves through an early exit (gate closed or kfifo empty, return
0; NULL `offset`, return -1) leaves `message_read` and the whole state unchanged; a
read that reaches the copy step sets `message_read` whatever the copy delivers and
whatever it returns, also when the recorded length is 0 and it returns 0 bytes; so
every read that returns a positive byte count sets it. -/
theorem consumed_mark (s : State) (n : Nat) (o : Bool) (u : Nat) :
    (((s.one_shot && s.message_read) = true ∨ kfifo_is_empty s.parrot_msg_fifo = true
        ∨ o = true) →
      (parrot_device_read s n o u).1 ≤ 0 ∧ (parrot_device_read s n o u).2.2 = s) ∧
    ((s.one_shot && s.message_read) = false → kfifo_is_empty s.parrot_msg_fifo = false →
      o = false → (parrot_device_read s n o u).2.2.message_read = true) ∧
    (0 < (parrot_device_read s n o u).1 →
      (parrot_device_read s n o u).2.2.message_read = true) := by
  refine ⟨?_, ?_, ?_⟩
  · intro h
    simp only [parrot_device_read]
    split
    · simp
    · split
      · simp
      · rename_i hg he
        split
        · simp
        · rename_i ho
          rcases h with h | h | h
          · exact absurd h hg
          · exact absurd h he
          · exact absurd h ho
  · intro hg he ho
    have hne : s.parrot_msg_fifo ≠ [] := by
      intro h
      simp [kfifo_is_empty, h] at he
    subst ho
    rw [read_copy s n u hg hne]
  · intro h
    exact (read_positive_marks s n o u h).1

theorem consumed_mark_witness :
    ((parrot_device_read (run (parrot_module_init true) [.dev_open false]) 8 false 0).1 ≤ 0 ∧
      (parrot_device_read (run (parrot_module_init true) [.dev_open false]) 8 false 0).2.2
        = run (parrot_module_init true) [.dev_open false]) ∧
    (parrot_device_read (run (parrot_module_init true)
      [.add [], .add [97], .dev_open false]) 8 false 0).2.2.message_read = true ∧
    (parrot_device_read (run (parrot_module_init true)
      [.add [97], .dev_open false]) 8 false 1).2.2.message_read = true ∧
    (parrot_device_read (run (parrot_module_init true)
      [.add [97], .dev_open false]) 8 false 0).2.2.message_read = true :=
  ⟨(consumed_mark (run (parrot_module_init true) [.dev_open false]) 8 false 0).1
      (Or.inr (Or.inl (by decide))),
    (consumed_mark (run (parrot_module_init true) [.add [], .add [97], .dev_open false])
      8 false 0).2.1 (by decide) (by decide) rfl,
    (consumed_mark (run (parrot_module_init true) [.add [97], .dev_open false])
      8 false 1).2.1 (by decide) (by decide) rfl,
    (consumed_mark (run (parrot_module_init true) [.add [97], .dev_open false])
      8 false 0).2.2 (by decide)⟩

/-- C10 (an empty read does not close the gate): with `one_shot` true, open a session
on a queue with no pending message (kfifo empty, read index equal to write index). The
open is granted, a read returns 0, delivers nothing and leaves `message_read` false; a
message `m` (at most 1024 bytes) enqueued afterwards is accepted, and the next read of
the same session returns `m` with its length. -/
theorem empty_read_keeps_gate_open (s0 : State) (m : List Nat) (n n' : Nat) (o : Bool)
    (u : Nat)
    (hwf : WellFormed s0) (hone : s0.one_shot = true) (hfree : s0.mutex_locked = false)
    (hfifo : s0.parrot_msg_fifo = [])
    (hidx : s0.parrot_msg_idx_read = s0.parrot_msg_idx_write)
    (hm : m.length ≤ PARROT_MSG_FIFO_SIZE) :
    (parrot_device_open s0 false).1 = 0 ∧
    (parrot_device_read (run s0 [.dev_open false]) n o u).1 = 0 ∧
    (parrot_device_read (run s0 [.dev_open false]) n o u).2.1 = [] ∧
    (run s0 [.dev_open false, .read n o u]).message_read = false ∧
    (sys_add_to_fifo (run s0 [.dev_open false, .read n o u]) m).1 = (m.length : Int) ∧
    (parrot_device_read (run s0 [.dev_open false, .read n o u, .add m]) n' false 0).1
      = (m.length : Int) ∧
    (parrot_device_read (run s0 [.dev_open false, .read n o u, .add m]) n' false 0).2.1
      = m := by
  obtain ⟨w1, w2, w3, _⟩ := hwf
  have hopen : parrot_device_open s0 false
      = (0, { s0 with mutex_locked := true, message_read := false }) := by
    simp [parrot_device_open, hfree]
  have hF : Framed { s0 with mutex_locked := true, message_read := false } [] := by
    refine ⟨w1, w2, ?_, by simp, by simpa using hfifo, ?_⟩
    · simp only [List.length_nil, Nat.add_zero, Nat.mod_eq_of_lt w2]
      exact hidx.symm
    · intro i hi
      simp at hi
  have hread : parrot_device_read { s0 with mutex_locked := true, message_read := false }
      n o u = (0, [], { s0 with mutex_locked := true, message_read := false }) :=
    read_fifo_empty _ n o u hfifo
  have h1 : m.length ≤ kfifo_avail
      ({ s0 with mutex_locked := true, message_read := false } : State).parrot_msg_fifo := by
    simp only [hfifo, kfifo_avail, List.length_nil]
    omega
  have h2 : (({ s0 with mutex_locked := true, message_read := false } : State).parrot_msg_idx_write
      + 1) % PARROT_MSG_FIFO_MAX
      ≠ ({ s0 with mutex_locked := true, message_read := false } : State).parrot_msg_idx_read := by
    simp only [PARROT_MSG_FIFO_MAX] at w2 w3 ⊢
    omega
  obtain ⟨hret, hF1⟩ := framed_add _ [] m hF h1 h2
  simp only [List.nil_append] at hF1
  simp only [run, List.foldl, step, hopen, hread]
  refine ⟨trivial, trivial, trivial, trivial, hret, ?_⟩
  by_cases hmn : m = []
  · subst hmn
    have he : (sys_add_to_fifo { s0 with mutex_locked := true, message_read := false }
        []).2.parrot_msg_fifo = [] := by
      rw [hF1.2.2.2.2.1]; rfl
    rw [read_fifo_empty _ n' false 0 he]
    exact ⟨rfl, rfl⟩
  · have hne : (sys_add_to_fifo { s0 with mutex_locked := true, message_read := false }
        m).2.parrot_msg_fifo ≠ [] := by
      rw [hF1.2.2.2.2.1]
      simpa using hmn
    have hg : ((sys_add_to_fifo { s0 with mutex_locked := true, message_read := false }
        m).2.one_shot &&
        (sys_add_to_fifo { s0 with mutex_locked := true, message_read := false }
          m).2.message_read) = false := by
      rw [add_accepted _ m h1 h2]
      simp
    obtain ⟨r1, r2, _, _⟩ := framed_read _ m [] n' hF1 hg hne
    exact ⟨r1, r2⟩

theorem empty_read_keeps_gate_open_witness :
    (parrot_device_open (parrot_module_init true) false).1 = 0 ∧
    (parrot_device_read (run (parrot_module_init true) [.dev_open false]) 64 false 0).1 = 0 ∧
    (parrot_device_read (run (parrot_module_init true) [.dev_open false]) 64 false 0).2.1
      = [] ∧
    (run (parrot_module_init true) [.dev_open false, .read 64 false 0]).message_read
      = false ∧
    (sys_add_to_fifo (run (parrot_module_init true) [.dev_open false, .read 64 false 0])
      [104, 105]).1 = 2 ∧
    (parrot_device_read (run (parrot_module_init true)
      [.dev_open false, .read 64 false 0, .add [104, 105]]) 64 false 0).1 = 2 ∧
    (parrot_device_read (run (parrot_module_init true)
      [.dev_open false, .read 64 false 0, .add [104, 105]]) 64 false 0).2.1 = [104, 105] :=
  empty_read_keeps_gate_open (parrot_module_init true) [104, 105] 64 64 false 0
    (wellFormed_init true) rfl rfl rfl rfl (by decide)

/-! ## Sessions -/

theorem framed_of_sameQueue (s t : State) (ps : List (List Nat)) (h : SameQueue s t)
    (hF : Framed s ps) : Framed t ps := by
  obtain ⟨h1, h2, h3, h4⟩ := h
  unfold Framed at hF ⊢
  rw [h1, h2, h3, h4]
  exact hF

theorem read_head_of_framed (s : State) (m : List Nat) (ps : List (List Nat)) (n : Nat)
    (hF : Framed s (m :: ps)) (hg : (s.one_shot && s.message_read) = false) :
    (parrot_device_read s n false 0).1 = (m.length : Int) ∧
    (parrot_device_read s n false 0).2.1 = m := by
  by_cases hne : s.parrot_msg_fifo = []
  · have hfl : (m :: ps).flatten = [] := by rw [← hF.2.2.2.2.1]; exact hne
    simp only [List.flatten_cons, List.append_eq_nil] at hfl
    rw [read_fifo_empty s n false 0 hne, hfl.1]
    exact ⟨rfl, rfl⟩
  · obtain ⟨r1, r2, _, _⟩ := framed_read s m ps n hF hg hne
    exact ⟨r1, r2⟩

/-- C11 (a granted open starts a fresh session): for every state in which the mutex is
free, a read-only `parrot_device_open` returns 0, takes the mutex, clears `message_read`
and leaves the queue and `one_shot` unchanged; so whatever `one_shot` is and whatever
the previous session consumed, when the queue holds the messages `m :: ps` the first
read of the new session returns `m`, the oldest pending message. -/
theorem granted_open_fresh_session (s : State) (hfree : s.mutex_locked = false) :
    (parrot_device_open s false).1 = 0 ∧
    (parrot_device_open s false).2.mutex_locked = true ∧
    (parrot_device_open s false).2.message_read = false ∧
    SameQueue s (parrot_device_open s false).2 ∧
    (parrot_device_open s false).2.one_shot = s.one_shot ∧
    ∀ (m : List Nat) (ps : List (List Nat)) (n : Nat), Framed s (m :: ps) →
      (parrot_device_read (parrot_device_open s false).2 n false 0).1 = (m.length : Int) ∧
      (parrot_device_read (parrot_device_open s false).2 n false 0).2.1 = m := by
  have hopen : parrot_device_open s false
      = (0, { s with mutex_locked := true, message_read := false }) := by
    simp [parrot_device_open, hfree]
  rw [hopen]
  refine ⟨rfl, rfl, rfl, ⟨rfl, rfl, rfl, rfl⟩, rfl, ?_⟩
  intro m ps n hF
  exact read_head_of_framed _ m ps n
    (framed_of_sameQueue s _ _ ⟨rfl, rfl, rfl, rfl⟩ hF) (by simp)

theorem granted_open_fresh_session_witness :
    (run (parrot_module_init true)
      [.add [104, 101, 108, 108, 111], .add [119, 111, 114, 108, 100, 33],
        .dev_open false, .read 64 false 0, .release]).message_read = true ∧
    (parrot_device_open (run (parrot_module_init true)
      [.add [104, 101, 108, 108, 111], .add [119, 111, 114, 108, 100, 33],
        .dev_open false, .read 64 false 0, .release]) false).1 = 0 ∧
    (parrot_device_read (parrot_device_open (run (parrot_module_init true)
      [.add [104, 101, 108, 108, 111], .add [119, 111, 114, 108, 100, 33],
        .dev_open false, .read 64 false 0, .release]) false).2 64 false 0).1 = 6 ∧
    (parrot_device_read (parrot_device_open (run (parrot_module_init true)
      [.add [104, 101, 108, 108, 111], .add [119, 111, 114, 108, 100, 33],
        .dev_open false, .read 64 false 0, .release]) false).2 64 false 0).2.1
      = [119, 111, 114, 108, 100, 33] :=
  ⟨by decide,
    (granted_open_fresh_session (run (parrot_module_init true)
      [.add [104, 101, 108, 108, 111], .add [119, 111, 114, 108, 100, 33],
        .dev_open false, .read 64 false 0, .release]) (by decide)).1,
    ((granted_open_fresh_session (run (parrot_module_init true)
      [.add [104, 101, 108, 108, 111], .add [119, 111, 114, 108, 100, 33],
        .dev_open false, .read 64 false 0, .release]) (by decide)).2.2.2.2.2
      [119, 111, 114, 108, 100, 33] [] 64 (by unfold Framed; decide)).1,
    ((granted_open_fresh_session (run (parrot_module_init true)
      [.add [104, 101, 108, 108, 111], .add [119, 111, 114, 108, 100, 33],
        .dev_open false, .read 64 false 0, .release]) (by decide)).2.2.2.2.2
      [119, 111, 114, 108, 100, 33] [] 64 (by unfold Framed; decide)).2⟩

theorem read_keeps_mutex (s : State) (n : Nat) (o : Bool) (u : Nat) :
    (parrot_device_read s n o u).2.2.mutex_locked = s.mutex_locked := by
  simp only [parrot_device_read]
  split
  · rfl
  · split
    · rfl
    · split <;> rfl

theorem add_keeps_mutex (s : State) (b : List Nat) :
    (sys_add_to_fifo s b).2.mutex_locked = s.mutex_locked := by
  simp only [sys_add_to_fifo]
  split
  · rfl
  · split <;> rfl

theorem track_step_sessions (t t' : Tracked) (c : Call)
    (h : track_step t c = some t')
    (hinv : t.sessions = if t.st.mutex_locked = true then 1 else 0) :
    t'.st = step t.st c ∧
    t'.sessions = if t'.st.mutex_locked = true then 1 else 0 := by
  cases c with
  | dev_open w =>
    simp only [track_step, Option.some.injEq] at h
    subst h
    refine ⟨rfl, ?_⟩
    cases w with
    | true => simpa [parrot_device_open, EACCES] using hinv
    | false =>
      cases hl : t.st.mutex_locked with
      | true => simpa [parrot_device_open, hl, EBUSY] using hinv
      | false => simpa [parrot_device_open, hl] using hinv
  | release =>
    simp only [track_step] at h
    split at h
    · simp at h
    · rename_i hne
      simp only [Option.some.injEq] at h
      subst h
      refine ⟨rfl, ?_⟩
      cases hl : t.st.mutex_locked with
      | true =>
        rw [hl] at hinv
        simp only [if_true] at hinv
        simp [parrot_device_release, hinv]
      | false =>
        rw [hl] at hinv
        simp at hinv
        exact absurd hinv hne
  | read n o u =>
    simp only [track_step, Option.some.injEq] at h
    subst h
    refine ⟨rfl, ?_⟩
    simp only [read_keeps_mutex]
    exact hinv
  | add b =>
    simp only [track_step, Option.some.injEq] at h
    subst h
    refine ⟨rfl, ?_⟩
    simp only [add_keeps_mutex]
    exact hinv
  | reset c =>
    simp only [track_step, Option.some.injEq] at h
    subst h
    exact ⟨rfl, hinv⟩
  | set_one_shot b =>
    simp only [track_step, Option.some.injEq] at h
    subst h
    exact ⟨rfl, hinv⟩

theorem track_run_sessions (cs : List Call) :
    ∀ (t t' : Tracked), track_run t cs = some t' →
      (t.sessions = if t.st.mutex_locked = true then 1 else 0) →
      t'.st = run t.st cs ∧
      t'.sessions = if t'.st.mutex_locked = true then 1 else 0 := by
  induction cs with
  | nil =>
    intro t t' h hinv
    simp only [track_run, Option.some.injEq] at h
    subst h
    exact ⟨rfl, hinv⟩
  | cons c cs ih =>
    intro t t' h hinv
    simp only [track_run] at h
    cases hs : track_step t c with
    | none => rw [hs] at h; simp at h
    | some t1 =>
      rw [hs] at h
      obtain ⟨e1, i1⟩ := track_step_sessions t t1 c hs hinv
      obtain ⟨e2, i2⟩ := ih t1 t' h i1
      refine ⟨?_, i2⟩
      rw [e2, e1]
      rfl

/-- C12 (exclusivity): in every state where the mutex is held a read-only
`parrot_device_open` returns `-EBUSY` and changes nothing; `parrot_device_release`
returns 0 and frees the mutex in every state, so a read-only open right after it is
granted; and after every sequence of calls as the VFS issues them from
`parrot_module_init` (a release only for a granted open) at most one session is open,
exactly when the mutex is held. -/
theorem exclusivity :
    (∀ s : State, s.mutex_locked = true →
      parrot_device_open s false = (-EBUSY, s)) ∧
    (∀ s : State, (parrot_device_release s).1 = 0 ∧
      (parrot_device_release s).2.mutex_locked = false ∧
      (parrot_device_open (parrot_device_release s).2 false).1 = 0) ∧
    (∀ (b : Bool) (cs : List Call) (t : Tracked),
      track_run { st := parrot_module_init b, sessions := 0 } cs = some t →
      t.st = run (parrot_module_init b) cs ∧ t.sessions ≤ 1 ∧
      (t.sessions = 1 ↔ t.st.mutex_locked = true)) := by
  refine ⟨?_, ?_, ?_⟩
  · intro s h
    simp [parrot_device_open, h]
  · intro s
    simp [parrot_device_release, parrot_device_open]
  · intro b cs t h
    obtain ⟨e, i⟩ := track_run_sessions cs _ t h (by simp [parrot_module_init])
    refine ⟨e, ?_, ?_⟩
    · rw [i]; split <;> omega
    · rw [i]; split <;> simp_all

theorem exclusivity_witness :
    parrot_device_open (run (parrot_module_init true) [.dev_open false]) false
      = (-EBUSY, run (parrot_module_init true) [.dev_open false]) ∧
    (parrot_device_open (parrot_device_release
      (run (parrot_module_init true) [.dev_open false])).2 false).1 = 0 ∧
    (∀ t : Tracked,
      track_run { st := parrot_module_init true, sessions := 0 }
        [.dev_open false, .dev_open false, .release, .dev_open true, .dev_open false]
        = some t → t.sessions ≤ 1) :=
  ⟨exclusivity.1 (run (parrot_module_init true) [.dev_open false]) (by decide),
    (exclusivity.2.1 (run (parrot_module_init true) [.dev_open false])).2.2,
    fun t h => (exclusivity.2.2 true
      [.dev_open false, .dev_open false, .release, .dev_open true, .dev_open false]
      t h).2.1⟩

/-- When the test `file->f_mode & FMODE_CAN_WRITE` is non-zero, `parrot_device_open`
returns `-EACCES` in every state and leaves the state unchanged. -/
theorem open_can_write_rejected (s : State) :
    parrot_device_open s true = (-EACCES, s) ∧
    (parrot_device_open s true).1 ≠ -EBUSY ∧
    (parrot_device_open s true).1 ≠ 0 ∧
    (parrot_device_open s true).2.mutex_locked = s.mutex_locked := by
  simp [parrot_device_open, EACCES, EBUSY]

/-- C13 (write-access rejection), the code at the failing input: for a file opened
for reading and writing (`f_mode = FMODE_READ | FMODE_WRITE`) or for writing only, as
the VFS hands it to `->open`, the test `file->f_mode & FMODE_CAN_WRITE` is zero; with
the mutex free `parrot_device_open` returns 0 and takes the mutex, and with the mutex
held it returns `-EBUSY`. It does not return `-EACCES`. -/
theorem write_open_is_granted :
    file_can_write (FMODE_READ ||| FMODE_WRITE) = false ∧
    file_can_write FMODE_WRITE = false ∧
    (parrot_device_open (parrot_module_init true)
      (file_can_write (FMODE_READ ||| FMODE_WRITE))).1 = 0 ∧
    (parrot_device_open (parrot_module_init true)
      (file_can_write (FMODE_READ ||| FMODE_WRITE))).2.mutex_locked = true ∧
    (parrot_device_open (parrot_module_init true) (file_can_write FMODE_WRITE)).1 = 0 ∧
    (parrot_device_open (run (parrot_module_init true) [.dev_open false])
      (file_can_write FMODE_WRITE)).1 = -EBUSY ∧
    (parrot_device_open (parrot_module_init true)
      (file_can_write (FMODE_READ ||| FMODE_WRITE))).1 ≠ -EACCES := by
  decide

/-- C17 (a rejected open has no effect): in every state, a `parrot_device_open` that
returns `-EBUSY` or `-EACCES` leaves the whole state unchanged (`message_read`, the
mutex, the byte kfifo, the length table, both indices); in particular, when the
one-shot gate of the active session is closed it stays closed, and the next read
still returns 0. -/
theorem rejected_open_no_effect (s : State) (w : Bool)
    (h : (parrot_device_open s w).1 = -EBUSY ∨ (parrot_device_open s w).1 = -EACCES) :
    (parrot_device_open s w).2 = s ∧
    (s.one_shot = true → s.message_read = true → ∀ (n : Nat) (o : Bool) (u : Nat),
      parrot_device_read (parrot_device_open s w).2 n o u = (0, [], s)) := by
  have hs : (parrot_device_open s w).2 = s := by
    cases w with
    | true => simp [parrot_device_open]
    | false =>
      cases hl : s.mutex_locked with
      | true => simp [parrot_device_open, hl]
      | false =>
        simp [parrot_device_open, hl, EBUSY, EACCES] at h
  refine ⟨hs, ?_⟩
  intro h1 h2 n o u
  rw [hs]
  exact read_gate_closed s n o u h1 h2

theorem rejected_open_no_effect_witness :
    (parrot_device_open (run (parrot_module_init true)
      [.add [104, 105], .add [33], .dev_open false, .read 64 false 0]) false).2
      = run (parrot_module_init true)
        [.add [104, 105], .add [33], .dev_open false, .read 64 false 0] ∧
    parrot_device_read (parrot_device_open (run (parrot_module_init true)
      [.add [104, 105], .add [33], .dev_open false, .read 64 false 0]) false).2 64 false 0
      = (0, [], run (parrot_module_init true)
        [.add [104, 105], .add [33], .dev_open false, .read 64 false 0]) :=
  ⟨(rejected_open_no_effect (run (parrot_module_init true)
      [.add [104, 105], .add [33], .dev_open false, .read 64 false 0]) false
      (Or.inl (by decide))).1,
    (rejected_open_no_effect (run (parrot_module_init true)
      [.add [104, 105], .add [33], .dev_open false, .read 64 false 0]) false
      (Or.inl (by decide))).2 (by decide) (by decide) 64 false 0⟩

/-! ## Reset, index range and short transfers -/

/-- C14 (reset): in every state `sys_reset` returns its `count` argument and leaves the
byte kfifo empty and both indices 0; a read right after it returns 0 and delivers
nothing; and (the table having its 128 slots) an enqueue of a one-byte payload after
the reset is accepted and a read that passes the one-shot gate then returns exactly
that byte. -/
theorem reset_empties_queue (s : State) (count : Nat) :
    (sys_reset s count).1 = (count : Int) ∧
    (sys_reset s count).2.parrot_msg_fifo = [] ∧
    (sys_reset s count).2.parrot_msg_idx_read = 0 ∧
    (sys_reset s count).2.parrot_msg_idx_write = 0 ∧
    (∀ (n : Nat) (o : Bool) (u : Nat),
      (parrot_device_read (sys_reset s count).2 n o u).1 = 0 ∧
      (parrot_device_read (sys_reset s count).2 n o u).2.1 = []) ∧
    (s.parrot_msg_len.length = PARROT_MSG_FIFO_MAX →
      (s.one_shot && s.message_read) = false → ∀ (x n : Nat),
      (sys_add_to_fifo (sys_reset s count).2 [x]).1 = 1 ∧
      (parrot_device_read (sys_add_to_fifo (sys_reset s count).2 [x]).2 n false 0).1 = 1 ∧
      (parrot_device_read (sys_add_to_fifo (sys_reset s count).2 [x]).2 n false 0).2.1
        = [x]) := by
  have hreset : sys_reset s count = ((count : Int), { s with
      parrot_msg_fifo := []
      parrot_msg_idx_read := 0
      parrot_msg_idx_write := 0 }) := rfl
  rw [hreset]
  refine ⟨rfl, rfl, rfl, rfl, ?_, ?_⟩
  · intro n o u
    rw [read_fifo_empty _ n o u rfl]
    exact ⟨rfl, rfl⟩
  · intro htbl hg x n
    have hF : Framed ({ s with
        parrot_msg_fifo := []
        parrot_msg_idx_read := 0
        parrot_msg_idx_write := 0 } : State) [] := by
      refine ⟨htbl, ?_, rfl, ?_, rfl, ?_⟩
      · simp [PARROT_MSG_FIFO_MAX]
      · simp
      · intro i hi
        simp at hi
    have h1 : [x].length ≤ kfifo_avail ({ s with
        parrot_msg_fifo := []
        parrot_msg_idx_read := 0
        parrot_msg_idx_write := 0 } : State).parrot_msg_fifo := by
      simp [kfifo_avail, PARROT_MSG_FIFO_SIZE]
    have h2 : (({ s with
        parrot_msg_fifo := []
        parrot_msg_idx_read := 0
        parrot_msg_idx_write := 0 } : State).parrot_msg_idx_write + 1) % PARROT_MSG_FIFO_MAX
        ≠ ({ s with
        parrot_msg_fifo := []
        parrot_msg_idx_read := 0
        parrot_msg_idx_write := 0 } : State).parrot_msg_idx_read := by
      simp [PARROT_MSG_FIFO_MAX]
    obtain ⟨hret, hF1⟩ := framed_add _ [] [x] hF h1 h2
    simp only [List.nil_append] at hF1
    have hg1 : ((sys_add_to_fifo ({ s with
        parrot_msg_fifo := []
        parrot_msg_idx_read := 0
        parrot_msg_idx_write := 0 } : State) [x]).2.one_shot &&
        (sys_add_to_fifo ({ s with
        parrot_msg_fifo := []
        parrot_msg_idx_read := 0
        parrot_msg_idx_write := 0 } : State) [x]).2.message_read) = false := by
      rw [add_accepted _ [x] h1 h2]
      exact hg
    obtain ⟨r1, r2⟩ := read_head_of_framed _ [x] [] n hF1 hg1
    exact ⟨by simpa using hret, by simpa using r1, r2⟩

theorem reset_empties_queue_witness :
    (sys_add_to_fifo (sys_reset (run (parrot_module_init false)
      [.add [104, 105], .add [33], .dev_open false, .read 64 false 0]) 1).2 [120]).1 = 1 ∧
    (parrot_device_read (sys_add_to_fifo (sys_reset (run (parrot_module_init false)
      [.add [104, 105], .add [33], .dev_open false, .read 64 false 0]) 1).2 [120]).2
      64 false 0).1 = 1 ∧
    (parrot_device_read (sys_add_to_fifo (sys_reset (run (parrot_module_init false)
      [.add [104, 105], .add [33], .dev_open false, .read 64 false 0]) 1).2 [120]).2
      64 false 0).2.1 = [120] :=
  (reset_empties_queue (run (parrot_module_init false)
    [.add [104, 105], .add [33], .dev_open false, .read 64 false 0]) 1).2.2.2.2.2
    (by decide) (by decide) 120 64

/-- C16 (index range invariant): in every reachable state both indices are below
`PARROT_MSG_FIFO_MAX = 128`, which is the number of slots of the table, so
`parrot_msg_len[parrot_msg_idx_read]` and `parrot_msg_len[parrot_msg_idx_write]` are
within bounds; and on these values the C expression `(idx + 1) % 128` on `int` is the
natural-number update of the model, so the indices never become negative. -/
theorem index_range (s : State) (h : Reachable s) :
    s.parrot_msg_idx_read < PARROT_MSG_FIFO_MAX ∧
    s.parrot_msg_idx_write < PARROT_MSG_FIFO_MAX ∧
    s.parrot_msg_idx_read < s.parrot_msg_len.length ∧
    s.parrot_msg_idx_write < s.parrot_msg_len.length ∧
    next_index_int (s.parrot_msg_idx_read : Int)
      = (((s.parrot_msg_idx_read + 1) % PARROT_MSG_FIFO_MAX : Nat) : Int) ∧
    next_index_int (s.parrot_msg_idx_write : Int)
      = (((s.parrot_msg_idx_write + 1) % PARROT_MSG_FIFO_MAX : Nat) : Int) := by
  obtain ⟨h1, h2, h3, _⟩ := wellFormed_of_reachable s h
  refine ⟨h2, h3, by rw [h1]; exact h2, by rw [h1]; exact h3, ?_, ?_⟩
  · simp only [next_index_int, PARROT_MSG_FIFO_MAX]
    rw [Int.tmod_eq_emod (by omega) (by decide)]
    omega
  · simp only [next_index_int, PARROT_MSG_FIFO_MAX]
    rw [Int.tmod_eq_emod (by omega) (by decide)]
    omega

theorem index_range_witness :
    (run (parrot_module_init true) (List.replicate 127 (.add [7]) ++ [.dev_open false,
      .read 8 false 0, .add [7]])).parrot_msg_idx_read < PARROT_MSG_FIFO_MAX ∧
    (run (parrot_module_init true) (List.replicate 127 (.add [7]) ++ [.dev_open false,
      .read 8 false 0, .add [7]])).parrot_msg_idx_write < PARROT_MSG_FIFO_MAX :=
  ⟨(index_range (run (parrot_module_init true) (List.replicate 127 (.add [7]) ++
      [.dev_open false, .read 8 false 0, .add [7]])) ⟨true, _, rfl⟩).1,
    (index_range (run (parrot_module_init true) (List.replicate 127 (.add [7]) ++
      [.dev_open false, .read 8 false 0, .add [7]])) ⟨true, _, rfl⟩).2.1⟩

/-- C18 (no short write): `kfifo_in` copying `min(count, available)` bytes, whenever
`sys_add_to_fifo` passes both capacity checks the number of bytes copied equals
`count`: the branch "short write detected" is never taken, the call returns `count`
and the length recorded at slot `parrot_msg_idx_write` is `count`. -/
theorem no_short_write (s : State) (b : List Nat) :
    short_write_detected s b = false ∧
    (¬ kfifo_avail s.parrot_msg_fifo < b.length →
      (s.parrot_msg_idx_write + 1) % PARROT_MSG_FIFO_MAX ≠ s.parrot_msg_idx_read →
      (kfifo_in s.parrot_msg_fifo b).1 = b.length ∧
      (sys_add_to_fifo s b).1 = (b.length : Int) ∧
      (sys_add_to_fifo s b).2.parrot_msg_len
        = s.parrot_msg_len.set s.parrot_msg_idx_write b.length) := by
  refine ⟨?_, ?_⟩
  · simp only [short_write_detected]
    split
    · rfl
    · split
      · rfl
      · rename_i h1 _
        simp only [kfifo_in]
        rw [Nat.min_eq_left (by omega)]
        simp
  · intro h1 h2
    rw [add_accepted s b (by omega) h2]
    refine ⟨?_, rfl, rfl⟩
    simp only [kfifo_in]
    exact Nat.min_eq_left (by omega)

theorem no_short_write_witness :
    (kfifo_in (run (parrot_module_init true) [.add [1, 2, 3]]).parrot_msg_fifo
      [4, 5]).1 = 2 ∧
    (sys_add_to_fifo (run (parrot_module_init true) [.add [1, 2, 3]]) [4, 5]).1 = 2 :=
  ⟨((no_short_write (run (parrot_module_init true) [.add [1, 2, 3]]) [4, 5]).2
      (by decide) (by decide)).1,
    ((no_short_write (run (parrot_module_init true) [.add [1, 2, 3]]) [4, 5]).2
      (by decide) (by decide)).2.1⟩

/-! ## The framing invariant along executions -/

theorem framed_step (s : State) (ps : List (List Nat)) (c : Call)
    (hF : Framed s ps) (hc : c.fault_free = true) :
    ∃ ps', Framed (step s c) ps' := by
  cases c with
  | dev_open w =>
    refine ⟨ps, framed_of_sameQueue s _ ps ?_ hF⟩
    simp only [step, parrot_device_open]
    split
    · exact ⟨rfl, rfl, rfl, rfl⟩
    · split <;> exact ⟨rfl, rfl, rfl, rfl⟩
  | release => exact ⟨ps, framed_of_sameQueue s _ ps ⟨rfl, rfl, rfl, rfl⟩ hF⟩
  | read n o u =>
    have hu : u = 0 := by simpa [Call.fault_free] using hc
    subst hu
    simp only [step]
    by_cases hg : (s.one_shot && s.message_read) = true
    · simp only [Bool.and_eq_true] at hg
      rw [read_gate_closed s n o 0 hg.1 hg.2]
      exact ⟨ps, hF⟩
    · have hg' : (s.one_shot && s.message_read) = false := by simpa using hg
      by_cases he : s.parrot_msg_fifo = []
      · rw [read_fifo_empty s n o 0 he]
        exact ⟨ps, hF⟩
      · cases o with
        | true =>
          rw [read_offset_null s n 0 hg' he]
          exact ⟨ps, hF⟩
        | false =>
          cases ps with
          | nil => exact absurd hF.2.2.2.2.1 he
          | cons m ps =>
            obtain ⟨_, _, hF1, _⟩ := framed_read s m ps n hF hg' he
            exact ⟨ps, hF1⟩
  | add b =>
    simp only [step]
    by_cases h1 : kfifo_avail s.parrot_msg_fifo < b.length
    · rw [add_no_space s b h1]
      exact ⟨ps, hF⟩
    · by_cases h2 : (s.parrot_msg_idx_write + 1) % PARROT_MSG_FIFO_MAX
          = s.parrot_msg_idx_read
      · rw [add_table_full s b h2]
        exact ⟨ps, hF⟩
      · exact ⟨ps ++ [b], (framed_add s ps b hF (by omega) h2).2⟩
  | reset c =>
    refine ⟨[], hF.1, ?_, ?_, ?_, ?_, ?_⟩
    · simp [step, sys_reset, PARROT_MSG_FIFO_MAX]
    · simp [step, sys_reset]
    · simp
    · simp [step, sys_reset, kfifo_reset]
    · intro i hi
      simp at hi
  | set_one_shot b => exact ⟨ps, framed_of_sameQueue s _ ps ⟨rfl, rfl, rfl, rfl⟩ hF⟩

theorem framed_run (cs : List Call) :
    ∀ (s : State) (ps : List (List Nat)), Framed s ps →
      (∀ c ∈ cs, c.fault_free = true) → ∃ ps', Framed (run s cs) ps' := by
  induction cs with
  | nil => intro s ps hF _; exact ⟨ps, hF⟩
  | cons c cs ih =>
    intro s ps hF hcs
    obtain ⟨ps1, hF1⟩ := framed_step s ps c hF (hcs c (by simp))
    exact ih (step s c) ps1 hF1 (fun c' hc' => hcs c' (by simp [hc']))

theorem framed_of_fault_free (s : State) (h : ReachableFaultFree s) :
    ∃ ps, Framed s ps := by
  obtain ⟨b, cs, hcs, rfl⟩ := h
  exact framed_run cs _ [] (framed_of_empty _ (wellFormed_init b) ⟨rfl, rfl, rfl⟩) hcs

theorem pending_sum_of_framed (s : State) (ps : List (List Nat)) (h : Framed s ps) :
    pending_sum s = s.parrot_msg_fifo.length := by
  have hc := pending_count_of_framed s ps h
  obtain ⟨_, _, _, _, hf, ht⟩ := h
  have hmap : (List.range ps.length).map (fun i =>
      s.parrot_msg_len.getD ((s.parrot_msg_idx_read + i) % PARROT_MSG_FIFO_MAX) 0)
      = ps.map List.length := by
    apply List.ext_getElem
    · simp
    · intro i h1 h2
      simp only [List.length_map, List.length_range] at h1
      simp only [List.getElem_map, List.getElem_range]
      exact ht i h1
  rw [pending_sum, hc, hmap, hf, List.length_flatten]

/-- Absent user-copy faults the byte kfifo holds exactly the bytes the pending slots
record. -/
theorem fault_free_pending_sum (s : State) (h : ReachableFaultFree s) :
    pending_sum s = s.parrot_msg_fifo.length ∧
    s.parrot_msg_fifo.length ≤ PARROT_MSG_FIFO_SIZE := by
  obtain ⟨ps, hF⟩ := framed_of_fault_free s h
  refine ⟨pending_sum_of_framed s ps hF, ?_⟩
  obtain ⟨b, cs, _, rfl⟩ := h
  exact (wellFormed_run cs _ (wellFormed_init b)).2.2.2

/-- C15 (FrameQueue invariant), the code at the failing input: with `one_shot` false,
enqueue "a", open, read it, enqueue "bc", read with a user buffer no byte of which
can be written (`kfifo_to_user` fails with `-EFAULT`, which the read returns converted
to `unsigned int`, 4294967282), read again. The two bytes "bc" are
still in the kfifo, but the read index (3) has passed the write index (2): 127 slots
count as pending and the lengths recorded in them sum to 3, more than the 2 bytes in
use. -/
theorem fault_breaks_pending_sum :
    Reachable (run (parrot_module_init false)
      [.add [97], .dev_open false, .read 8 false 0, .add [98, 99], .read 8 false 2,
        .read 8 false 0]) ∧
    (parrot_device_read (run (parrot_module_init false)
      [.add [97], .dev_open false, .read 8 false 0, .add [98, 99]]) 8 false 2).1
      = 4294967282 ∧
    (run (parrot_module_init false)
      [.add [97], .dev_open false, .read 8 false 0, .add [98, 99], .read 8 false 2,
        .read 8 false 0]).parrot_msg_fifo = [98, 99] ∧
    (run (parrot_module_init false)
      [.add [97], .dev_open false, .read 8 false 0, .add [98, 99], .read 8 false 2,
        .read 8 false 0]).parrot_msg_idx_read = 3 ∧
    (run (parrot_module_init false)
      [.add [97], .dev_open false, .read 8 false 0, .add [98, 99], .read 8 false 2,
        .read 8 false 0]).parrot_msg_idx_write = 2 ∧
    pending_sum (run (parrot_module_init false)
      [.add [97], .dev_open false, .read 8 false 0, .add [98, 99], .read 8 false 2,
        .read 8 false 0]) = 3 ∧
    ¬ (pending_sum (run (parrot_module_init false)
      [.add [97], .dev_open false, .read 8 false 0, .add [98, 99], .read 8 false 2,
        .read 8 false 0])
      ≤ (run (parrot_module_init false)
      [.add [97], .dev_open false, .read 8 false 0, .add [98, 99], .read 8 false 2,
        .read 8 false 0]).parrot_msg_fifo.length) := by
  refine ⟨⟨false, _, rfl⟩, ?_⟩
  decide

/-- Absent user-copy faults in the whole execution: whenever the byte kfifo is
non-empty it holds at least `parrot_msg_len[parrot_msg_idx_read]` bytes; a read with a
writable user buffer takes exactly the recorded number of bytes out of the kfifo, the
branch "short read detected" is not taken, the bytes taken are the oldest pending
message and the bytes left are the concatenation of the remaining pending messages. -/
theorem fault_free_no_short_read (s : State) (h : ReachableFaultFree s)
    (hne : kfifo_is_empty s.parrot_msg_fifo = false) :
    s.parrot_msg_len.getD s.parrot_msg_idx_read 0 ≤ s.parrot_msg_fifo.length ∧
    (kfifo_to_user s.parrot_msg_fifo
      (s.parrot_msg_len.getD s.parrot_msg_idx_read 0) 0).copied
      = s.parrot_msg_len.getD s.parrot_msg_idx_read 0 ∧
    (∀ o : Bool, short_read_detected s o 0 = false) ∧
    ∃ (m : List Nat) (ps : List (List Nat)), Framed s (m :: ps) ∧
      (kfifo_to_user s.parrot_msg_fifo
        (s.parrot_msg_len.getD s.parrot_msg_idx_read 0) 0).data = m ∧
      (kfifo_to_user s.parrot_msg_fifo
        (s.parrot_msg_len.getD s.parrot_msg_idx_read 0) 0).fifo = ps.flatten ∧
      ∀ (m' : List Nat) (ps' : List (List Nat)), ps = m' :: ps' →
        m' <+: (kfifo_to_user s.parrot_msg_fifo
          (s.parrot_msg_len.getD s.parrot_msg_idx_read 0) 0).fifo := by
  obtain ⟨ps, hF⟩ := framed_of_fault_free s h
  have hfne : s.parrot_msg_fifo ≠ [] := by
    intro he
    simp [kfifo_is_empty, he] at hne
  cases ps with
  | nil => exact absurd hF.2.2.2.2.1 hfne
  | cons m ps =>
    have hF' := hF
    obtain ⟨_, hr, _, _, hf, ht⟩ := hF
    have h0 := ht 0 (by simp)
    simp only [PARROT_MSG_FIFO_MAX] at hr h0
    simp only [Nat.add_zero, Nat.mod_eq_of_lt hr, List.getElem_cons_zero] at h0
    have hf' : s.parrot_msg_fifo = m ++ ps.flatten := by simpa using hf
    have hk : kfifo_to_user s.parrot_msg_fifo
        (s.parrot_msg_len.getD s.parrot_msg_idx_read 0) 0
        = { retval := 0, copied := m.length, data := m, fifo := ps.flatten } := by
      rw [h0, hf', kfifo_to_user_whole]
    refine ⟨?_, ?_, ?_, m, ps, hF', ?_, ?_, ?_⟩
    · rw [h0, hf', List.length_append]; omega
    · rw [hk, h0]
    · intro o
      simp only [short_read_detected, hk]
      split
      · rfl
      · split
        · rfl
        · split
          · rfl
          · rw [h0]
            simp
    · rw [hk]
    · rw [hk]
    · intro m' ps' hps
      rw [hk, hps]
      simp

theorem fault_free_no_short_read_example :
    (run (parrot_module_init true)
      [.add [104, 101, 108, 108, 111], .add [119, 111, 114, 108, 100, 33],
        .dev_open false]).parrot_msg_len.getD 0 0 ≤ 11 ∧
    short_read_detected (run (parrot_module_init true)
      [.add [104, 101, 108, 108, 111], .add [119, 111, 114, 108, 100, 33],
        .dev_open false]) false 0 = false :=
  ⟨(fault_free_no_short_read (run (parrot_module_init true)
      [.add [104, 101, 108, 108, 111], .add [119, 111, 114, 108, 100, 33],
        .dev_open false]) ⟨true, _, by decide, rfl⟩ (by decide)).1,
    (fault_free_no_short_read (run (parrot_module_init true)
      [.add [104, 101, 108, 108, 111], .add [119, 111, 114, 108, 100, 33],
        .dev_open false]) ⟨true, _, by decide, rfl⟩ (by decide)).2.2.1 false⟩

/-- C19 (no short read from the ring), the code at the failing input: with `one_shot`
false, enqueue "a" and "bcd", reset, enqueue "e", open, and read with a user buffer no
byte of which can be written. That read leaves "e" in the kfifo and still advances the
read index to slot 1, which holds the length 3 recorded before the reset. In this
reachable state the kfifo is non-empty but holds 1 byte, fewer than
`parrot_msg_len[parrot_msg_idx_read] = 3`; the next `parrot_device_read`, made with a
writable buffer, reaches the copy step, takes the branch "short read detected" and
returns 1. -/
theorem fault_leads_to_short_read :
    Reachable (run (parrot_module_init false)
      [.add [97], .add [98, 99, 100], .reset 1, .add [101], .dev_open false,
        .read 8 false 1]) ∧
    kfifo_is_empty (run (parrot_module_init false)
      [.add [97], .add [98, 99, 100], .reset 1, .add [101], .dev_open false,
        .read 8 false 1]).parrot_msg_fifo = false ∧
    (run (parrot_module_init false)
      [.add [97], .add [98, 99, 100], .reset 1, .add [101], .dev_open false,
        .read 8 false 1]).parrot_msg_fifo = [101] ∧
    (run (parrot_module_init false)
      [.add [97], .add [98, 99, 100], .reset 1, .add [101], .dev_open false,
        .read 8 false 1]).parrot_msg_idx_read = 1 ∧
    (run (parrot_module_init false)
      [.add [97], .add [98, 99, 100], .reset 1, .add [101], .dev_open false,
        .read 8 false 1]).parrot_msg_len.getD 1 0 = 3 ∧
    short_read_detected (run (parrot_module_init false)
      [.add [97], .add [98, 99, 100], .reset 1, .add [101], .dev_open false,
        .read 8 false 1]) false 0 = true ∧
    (parrot_device_read (run (parrot_module_init false)
      [.add [97], .add [98, 99, 100], .reset 1, .add [101], .dev_open false,
        .read 8 false 1]) 8 false 0).1 = 1 ∧
    (parrot_device_read (run (parrot_module_init false)
      [.add [97], .add [98, 99, 100], .reset 1, .add [101], .dev_open false,
        .read 8 false 1]) 8 false 0).2.1 = [101] ∧
    (parrot_device_read (run (parrot_module_init false)
      [.add [97], .add [98, 99, 100], .reset 1, .add [101], .dev_open false,
        .read 8 false 1]) 8 false 0).2.2.parrot_msg_fifo = [] := by
  refine ⟨⟨false, _, rfl⟩, ?_⟩
  decide

/-- C4 (empty test of dequeue), amended: in every state, a read that passes the one-shot
gate returns 0 and leaves the queue unchanged if and only if the byte kfifo is empty.
When the kfifo is non-empty the queue of a state reached without a user-copy fault
holds messages `m :: ps`, and on such a queue a read with a non-NULL `offset` and a
writable user buffer retires exactly one message: it returns and delivers `m`, leaves
exactly `ps` pending (the kfifo is their concatenation), sets the read index to
`(parrot_msg_idx_read + 1) mod 128` and leaves the write index and the table
unchanged. -/
theorem read_empty_test (s : State) (n : Nat) (o : Bool) (u : Nat)
    (hg : (s.one_shot && s.message_read) = false) :
    (((parrot_device_read s n o u).1 = 0 ∧ SameQueue s (parrot_device_read s n o u).2.2)
      ↔ kfifo_is_empty s.parrot_msg_fifo = true) ∧
    (ReachableFaultFree s → kfifo_is_empty s.parrot_msg_fifo = false →
      ∃ (m : List Nat) (ps : List (List Nat)), Framed s (m :: ps)) ∧
    (∀ (m : List Nat) (ps : List (List Nat)), Framed s (m :: ps) →
      kfifo_is_empty s.parrot_msg_fifo = false →
      (parrot_device_read s n false 0).1 = (m.length : Int) ∧
      (parrot_device_read s n false 0).2.1 = m ∧
      Framed (parrot_device_read s n false 0).2.2 ps ∧
      (parrot_device_read s n false 0).2.2.parrot_msg_fifo = ps.flatten ∧
      (parrot_device_read s n false 0).2.2.parrot_msg_idx_read
        = (s.parrot_msg_idx_read + 1) % PARROT_MSG_FIFO_MAX ∧
      (parrot_device_read s n false 0).2.2.parrot_msg_idx_write = s.parrot_msg_idx_write ∧
      (parrot_device_read s n false 0).2.2.parrot_msg_len = s.parrot_msg_len) := by
  refine ⟨?_, ?_, ?_⟩
  · by_cases he : s.parrot_msg_fifo = []
    · have hk : kfifo_is_empty s.parrot_msg_fifo = true := by simp [kfifo_is_empty, he]
      rw [read_fifo_empty s n o u he]
      simp [hk, SameQueue]
    · have hk : kfifo_is_empty s.parrot_msg_fifo = false := by simp [kfifo_is_empty, he]
      cases o with
      | true =>
        rw [read_offset_null s n u hg he]
        simp [hk]
      | false =>
        rw [read_copy s n u hg he]
        simp only [hk, Bool.false_eq_true, iff_false, SameQueue, not_and]
        intro _ _ _ h3
        simp only [PARROT_MSG_FIFO_MAX] at h3
        omega
  · intro hr hk
    obtain ⟨ps, hF⟩ := framed_of_fault_free s hr
    cases ps with
    | nil =>
      have he : s.parrot_msg_fifo = [] := hF.2.2.2.2.1
      simp [kfifo_is_empty, he] at hk
    | cons m ps => exact ⟨m, ps, hF⟩
  · intro m ps hF hk
    have hne : s.parrot_msg_fifo ≠ [] := by
      intro he
      simp [kfifo_is_empty, he] at hk
    obtain ⟨r1, r2, hF1, _⟩ := framed_read s m ps n hF hg hne
    refine ⟨r1, r2, hF1, hF1.2.2.2.2.1, ?_, ?_, ?_⟩
    · rw [read_copy s n 0 hg hne]
    · rw [read_copy s n 0 hg hne]
    · rw [read_copy s n 0 hg hne]

theorem read_empty_test_witness :
    ((((parrot_device_read (run (parrot_module_init true)
          [.add [97, 98], .add [99], .dev_open false]) 8 false 0).1 = 0 ∧
        SameQueue (run (parrot_module_init true) [.add [97, 98], .add [99], .dev_open false])
          (parrot_device_read (run (parrot_module_init true)
            [.add [97, 98], .add [99], .dev_open false]) 8 false 0).2.2)
      ↔ kfifo_is_empty (run (parrot_module_init true)
          [.add [97, 98], .add [99], .dev_open false]).parrot_msg_fifo = true)) ∧
    (parrot_device_read (run (parrot_module_init true)
      [.add [97, 98], .add [99], .dev_open false]) 8 false 0).1 = 2 ∧
    (parrot_device_read (run (parrot_module_init true)
      [.add [97, 98], .add [99], .dev_open false]) 8 false 0).2.1 = [97, 98] ∧
    (parrot_device_read (run (parrot_module_init true)
      [.add [97, 98], .add [99], .dev_open false]) 8 false 0).2.2.parrot_msg_fifo = [99] ∧
    (parrot_device_read (run (parrot_module_init true)
      [.add [97, 98], .add [99], .dev_open false]) 8 false 0).2.2.parrot_msg_idx_read = 1 :=
  ⟨(read_empty_test (run (parrot_module_init true)
      [.add [97, 98], .add [99], .dev_open false]) 8 false 0 (by decide)).1,
    ((read_empty_test (run (parrot_module_init true)
      [.add [97, 98], .add [99], .dev_open false]) 8 false 0 (by decide)).2.2
      [97, 98] [[99]] (by unfold Framed; decide) (by decide)).1,
    ((read_empty_test (run (parrot_module_init true)
      [.add [97, 98], .add [99], .dev_open false]) 8 false 0 (by decide)).2.2
      [97, 98] [[99]] (by unfold Framed; decide) (by decide)).2.1,
    ((read_empty_test (run (parrot_module_init true)
      [.add [97, 98], .add [99], .dev_open false]) 8 false 0 (by decide)).2.2
      [97, 98] [[99]] (by unfold Framed; decide) (by decide)).2.2.2.1,
    ((read_empty_test (run (parrot_module_init true)
      [.add [97, 98], .add [99], .dev_open false]) 8 false 0 (by decide)).2.2
      [97, 98] [[99]] (by unfold Framed; decide) (by decide)).2.2.2.2.1⟩

end Parrot
